import Mathlib

/-!
# n-body simulation, sequential reference (`n_body_sim_cpu.cc`)

A shallow embedding of the CPU reference implementation of the all-pairs
n-body step, and theorems about it.

Modelling conventions.

* `float` values are elements of an arbitrary field `α` (exact arithmetic, no
  rounding, no NaN, no infinities).  `sqrt` is passed as a function `α → α`;
  theorems that need its meaning are stated over `ℝ` with `Real.sqrt`.  The
  division by the mass goes through `fdiv`, which does not use the value the
  field gives to `x / 0`.
* `SOFT_FACTOR` is a constant of the header `n_body_sim_cuda.cuh`, which is
  not part of the sources at hand; it is a parameter of every function that
  uses it.
* The globals `pingpong`, `num_particles`, `particle_vels[2]`,
  `particle_data[2]` are the fields of `SimState`.  The two heap arrays behind
  `particle_vels[b]` and `particle_data[b]` are maps from an offset to the
  value stored there.
* The local `float force[2]` of `call_interact_kernel` is declared without an
  initialiser, so its initial content is indeterminate; the content it has when
  the iteration executed in position `k` starts is the argument
  `force_uninit k`.  `interact_loop_carried` is the instance in which the array
  is one stack slot that keeps what the previous iteration left.
* `int` products wrap around (`int_wrap`).
-/

namespace NBody

/-- The global variables of `n_body_sim_cpu.cc`. -/
structure SimState (α : Type) where
  /-- Global `int pingpong` (source line 7). -/
  pingpong : Int
  /-- Global `int num_particles` (source line 10). -/
  num_particles : Int
  /-- Global `float* particle_vels[2]`: buffer index, then offset. -/
  particle_vels : Int → Nat → α
  /-- Global `float* particle_data[2]`: buffer index, then offset. -/
  particle_data : Int → Nat → α

/-- The assignment `mem[b][k] = v` on a pair of arrays. -/
def store {α : Type} (mem : Int → Nat → α) (b : Int) (k : Nat) (v : α) : Int → Nat → α :=
  fun b' k' => if b' = b ∧ k' = k then v else mem b' k'

section Kernel

variable {α : Type} [Field α]

/-- Local `x_dist` of `add_force` (source line 51). -/
def x_dist (s : SimState α) (p1 p2 : Nat) : α :=
  s.particle_data s.pingpong (3 * p1) - s.particle_data s.pingpong (3 * p2)

/-- Local `y_dist` of `add_force` (source line 52). -/
def y_dist (s : SimState α) (p1 p2 : Nat) : α :=
  s.particle_data s.pingpong (3 * p1 + 1) - s.particle_data s.pingpong (3 * p2 + 1)

/-- Local `dist_squared` of `add_force` (source line 53). -/
def dist_squared (SOFT_FACTOR : α) (s : SimState α) (p1 p2 : Nat) : α :=
  x_dist s p1 p2 * x_dist s p1 p2 + y_dist s p1 p2 * y_dist s p1 p2 + SOFT_FACTOR

/-- Local `force_magnitude` of `add_force` (source line 55). -/
def force_magnitude (SOFT_FACTOR : α) (s : SimState α) (p1 p2 : Nat) : α :=
  s.particle_data s.pingpong (3 * p1 + 2) * s.particle_data s.pingpong (3 * p2 + 2)
    / dist_squared SOFT_FACTOR s p1 p2

/-- Function `add_force(p1, p2, force)` (source lines 47-58): the argument
`force` is the content of the two-element array on entry, the result its
content on exit.  Nothing else is written. -/
def add_force (sqrt : α → α) (SOFT_FACTOR : α) (s : SimState α) (p1 p2 : Nat)
    (force : α × α) : α × α :=
  (force.1 - x_dist s p1 p2 * force_magnitude SOFT_FACTOR s p1 p2
      / sqrt (dist_squared SOFT_FACTOR s p1 p2),
   force.2 - y_dist s p1 p2 * force_magnitude SOFT_FACTOR s p1 p2
      / sqrt (dist_squared SOFT_FACTOR s p1 p2))

/-- The inner loop `for (j = 0; j < num_particles; j++) add_force(i, j, force)`
(source lines 64-67), started on the array content `force`. -/
def force_loop (sqrt : α → α) (SOFT_FACTOR : α) (s : SimState α) (i : Nat)
    (force : α × α) : α × α :=
  (List.range s.num_particles.toNat).foldl
    (fun f j => add_force sqrt SOFT_FACTOR s i j f) force

/-- The float division `x / y` of source lines 68-69.  For `y ≠ 0` it is the
division of the field.  A float division by zero leaves an infinity or a NaN,
which is no number of the field; `div_zero x` stands in its place. -/
def fdiv [DecidableEq α] (div_zero : α → α) (x y : α) : α :=
  if y = 0 then div_zero x else x / y

/-- One iteration of the outer loop of `call_interact_kernel` (source lines
62-73) for particle `i`; `force0` is the indeterminate initial content of the
local array `force`.  The four assignments are executed one after the other,
each reading the state left by the one before. -/
def interact_body [DecidableEq α] (sqrt : α → α) (div_zero : α → α) (SOFT_FACTOR : α)
    (dt : α) (force0 : α × α) (s : SimState α) (i : Nat) : SimState α :=
  let force := force_loop sqrt SOFT_FACTOR s i force0
  let s1 : SimState α := { s with particle_vels :=
    (store s.particle_vels (1 - s.pingpong) (2 * i)
      (s.particle_vels s.pingpong (2 * i)
        + fdiv div_zero (force.1 * dt) (s.particle_data s.pingpong (3 * i + 2)))) }
  let s2 : SimState α := { s1 with particle_vels :=
    (store s1.particle_vels (1 - s1.pingpong) (2 * i + 1)
      (s1.particle_vels s1.pingpong (2 * i + 1)
        + fdiv div_zero (force.2 * dt) (s1.particle_data s1.pingpong (3 * i + 2)))) }
  let s3 : SimState α := { s2 with particle_data :=
    (store s2.particle_data (1 - s2.pingpong) (3 * i)
      (s2.particle_data s2.pingpong (3 * i)
        + s2.particle_vels (1 - s2.pingpong) (2 * i) * dt)) }
  { s3 with particle_data :=
    (store s3.particle_data (1 - s3.pingpong) (3 * i + 1)
      (s3.particle_data s3.pingpong (3 * i + 1)
        + s3.particle_vels (1 - s3.pingpong) (2 * i + 1) * dt)) }

/-- The outer loop of `call_interact_kernel` run over the particle indices in
the list `l`, in that order, after `k` iterations have been executed.  The
local array `force` is never initialised: `force_uninit k` is the content it
has when the iteration executed in position `k` starts, whichever particle
that iteration handles. -/
def interact_loop_from [DecidableEq α] (sqrt : α → α) (div_zero : α → α) (SOFT_FACTOR : α)
    (force_uninit : Nat → α × α) (dt : α) : Nat → List Nat → SimState α → SimState α
  | _, [], s => s
  | k, i :: l, s =>
    interact_loop_from sqrt div_zero SOFT_FACTOR force_uninit dt (k + 1) l
      (interact_body sqrt div_zero SOFT_FACTOR dt (force_uninit k) s i)

/-- The outer loop of `call_interact_kernel` run over the particle indices in
the list `l`, in that order, from its first iteration. -/
def interact_loop [DecidableEq α] (sqrt : α → α) (div_zero : α → α) (SOFT_FACTOR : α)
    (force_uninit : Nat → α × α) (dt : α) (l : List Nat) (s : SimState α) : SimState α :=
  interact_loop_from sqrt div_zero SOFT_FACTOR force_uninit dt 0 l s

/-- Function `call_interact_kernel(dt)` (source lines 60-75): the outer loop
over `i = 0 .. num_particles - 1`, then `pingpong = 1 - pingpong`.  In this
order the iteration in position `i` handles particle `i`. -/
def call_interact_kernel [DecidableEq α] (sqrt : α → α) (div_zero : α → α)
    (SOFT_FACTOR : α) (force_uninit : Nat → α × α) (dt : α) (s : SimState α) :
    SimState α :=
  let t := interact_loop sqrt div_zero SOFT_FACTOR force_uninit dt
    (List.range s.num_particles.toNat) s
  { t with pingpong := 1 - t.pingpong }

/-- One iteration of the outer loop when the array `force` is one stack slot
that nothing else writes: the iteration starts on what the slot holds and
leaves in it the force it has accumulated.  The pair is the state and the
slot. -/
def interact_body_carried [DecidableEq α] (sqrt : α → α) (div_zero : α → α)
    (SOFT_FACTOR : α) (dt : α) (p : SimState α × (α × α)) (i : Nat) :
    SimState α × (α × α) :=
  (interact_body sqrt div_zero SOFT_FACTOR dt p.2 p.1 i,
   force_loop sqrt SOFT_FACTOR p.1 i p.2)

/-- The outer loop over the particle indices in `l` when the array `force` is
one stack slot holding `entry` when the loop is entered and carried from each
iteration to the next. -/
def interact_loop_carried [DecidableEq α] (sqrt : α → α) (div_zero : α → α)
    (SOFT_FACTOR : α) (dt : α) (entry : α × α) (l : List Nat) (s : SimState α) :
    SimState α :=
  (l.foldl (interact_body_carried sqrt div_zero SOFT_FACTOR dt) (s, entry)).1

end Kernel

/-- Function `get_particle_data(h_particle_data, h_particle_vels)` (source
lines 77-80): the two `memcpy` calls overwrite the first `3 * num_particles`
and `2 * num_particles` entries of the destinations with the arrays
`particle_data[1 - pingpong]` and `particle_vels[1 - pingpong]`.  The
arguments are the destination contents on entry, the result their contents on
exit. -/
def get_particle_data {α : Type} (s : SimState α) (h_particle_data h_particle_vels : Nat → α) :
    (Nat → α) × (Nat → α) :=
  (fun k => if (k : Int) < 3 * s.num_particles
      then s.particle_data (1 - s.pingpong) k else h_particle_data k,
   fun k => if (k : Int) < 2 * s.num_particles
      then s.particle_vels (1 - s.pingpong) k else h_particle_vels k)

/-- The value of an `int` expression whose mathematical value is `x`: 32-bit
two's complement wrap-around. -/
def int_wrap (x : Int) : Int := (x + 2147483648) % 4294967296 - 2147483648

/-- The pointer assignment `mem[b] = arr` on a pair of arrays. -/
def assign_array {α : Type} (mem : Int → Nat → α) (b : Int) (arr : Nat → α) : Int → Nat → α :=
  fun b' k => if b' = b then arr k else mem b' k

/-- Whether the `k`-th expression `new float[len]` of `init_data` returns: it
throws on a negative length, and when the heap refuses the request, which is
`heap_ok k = false`. -/
def new_returns (heap_ok : Nat → Bool) (k : Nat) (len : Int) : Bool :=
  decide (0 ≤ len) && heap_ok k

section Init

variable {α : Type} [Field α]

/-- One iteration of the loop of `init_data` (source lines 26-35).  The source
applies `%` to the `int` returned by `rand()` and a `float`; what that
operator computes is not defined by the sources at hand and is the parameter
`rem`.  `rand k` is the value returned by the `k`-th call of `rand()` made by
`init_data`. -/
def init_body (rem : Int → α → α) (rand : Nat → Int)
    (box_width box_height min_vel max_vel : α) (s : SimState α) (i : Nat) : SimState α :=
  let s1 : SimState α := { s with particle_vels :=
    (store s.particle_vels 0 (2 * i) (rem (rand (4 * i)) (max_vel - min_vel) + min_vel)) }
  let s2 : SimState α := { s1 with particle_vels :=
    (store s1.particle_vels 0 (2 * i + 1)
      (rem (rand (4 * i + 1)) (max_vel - min_vel) + min_vel)) }
  let s3 : SimState α := { s2 with particle_data :=
    (store s2.particle_data 0 (3 * i) (rem (rand (4 * i + 2)) box_width)) }
  let s4 : SimState α := { s3 with particle_data :=
    (store s3.particle_data 0 (3 * i + 1) (rem (rand (4 * i + 3)) box_height)) }
  { s4 with particle_data := (store s4.particle_data 0 (3 * i + 2) 1) }

/-- Function `init_data` (source lines 15-36), statement by statement.  The
result is `Except.ok` with the globals on return, or `Except.error` with the
globals as they are when a `new` expression throws.  The array lengths
`num_particles * 2` and `num_particles * 3` are `int` products.  `fresh_vels b`
and `fresh_data b` are the contents of the arrays that the `new` expressions
return (they are not initialised by `new`), `heap_ok k` tells whether the heap
grants the `k`-th request.  The function does not assign `pingpong`.  The last
three arguments are not used by the body. -/
def init_data (rem : Int → α → α) (rand : Nat → Int) (heap_ok : Nat → Bool)
    (fresh_vels fresh_data : Int → Nat → α)
    (s : SimState α) (h_num_particles : Int) (box_width box_height min_vel max_vel : α)
    (_h_num_blocks _h_num_threads_per_block _h_algorithm : Int) :
    Except (SimState α) (SimState α) :=
  let s0 : SimState α := { s with num_particles := h_num_particles }
  if new_returns heap_ok 0 (int_wrap (s0.num_particles * 2)) = false then Except.error s0
  else
    let s1 : SimState α := { s0 with particle_vels :=
      (assign_array s0.particle_vels 0 (fresh_vels 0)) }
    if new_returns heap_ok 1 (int_wrap (s1.num_particles * 2)) = false then Except.error s1
    else
      let s2 : SimState α := { s1 with particle_vels :=
        (assign_array s1.particle_vels 1 (fresh_vels 1)) }
      if new_returns heap_ok 2 (int_wrap (s2.num_particles * 3)) = false then Except.error s2
      else
        let s3 : SimState α := { s2 with particle_data :=
          (assign_array s2.particle_data 0 (fresh_data 0)) }
        if new_returns heap_ok 3 (int_wrap (s3.num_particles * 3)) = false then
          Except.error s3
        else
          let s4 : SimState α := { s3 with particle_data :=
            (assign_array s3.particle_data 1 (fresh_data 1)) }
          Except.ok ((List.range s4.num_particles.toNat).foldl
            (init_body rem rand box_width box_height min_vel max_vel) s4)

/-- The globals when the program starts: `pingpong = 0` by its initialiser,
the others zero-initialised. -/
def program_start : SimState α :=
  { pingpong := 0, num_particles := 0, particle_vels := fun _ _ => 0,
    particle_data := fun _ _ => 0 }

end Init

section Scenarios

variable (α : Type) [Field α]

/-- The golden scenario of the specification as a state: two particles at
`(0,0)` and `(4,0)`, mass 1 each, both at rest, held in buffer 0, which is
current; every slot of buffer 1 holds 0. -/
def golden_state : SimState α :=
  { pingpong := 0, num_particles := 2, particle_vels := fun _ _ => 0,
    particle_data := fun b k =>
      if b = 0 then (if k = 3 then 4 else if k = 2 ∨ k = 5 then 1 else 0) else 0 }

/-- A run of `init_data(1, 10, 10, 0, 10, 1, 1, 0)` at program start in which
every `rand()` returns 3, so that every `rand() % 10` is 3, the heap grants
all four requests, and the arrays returned by `new` hold 0 in every slot: one
particle at `(3,3)` with velocity `(3,3)` and mass 1 in buffer 0. -/
def seeded_run : Except (SimState α) (SimState α) :=
  init_data (fun _ _ => 3) (fun _ => 3) (fun _ => true) (fun _ _ => 0) (fun _ _ => 0)
    program_start 1 10 10 0 10 1 1 0

end Scenarios

section Stored

variable {α : Type} [Field α] [DecidableEq α]

/-- The outer loop with the initial content of the array `force` given per
particle: iteration `i` starts on `u i`.  For the ascending order of
`call_interact_kernel` this is `interact_loop`; it serves to describe what the
loop stores. -/
def interact_fold (sqrt : α → α) (div_zero : α → α) (SOFT_FACTOR : α) (u : Nat → α × α)
    (dt : α) (l : List Nat) (s : SimState α) : SimState α :=
  l.foldl (fun t i => interact_body sqrt div_zero SOFT_FACTOR dt (u i) t i) s

/-- The velocity that iteration `i` stores, first component. -/
def new_vel_x (sqrt : α → α) (div_zero : α → α) (S dt : α) (g : α × α) (s : SimState α)
    (i : Nat) : α :=
  s.particle_vels s.pingpong (2 * i)
    + fdiv div_zero ((force_loop sqrt S s i g).1 * dt) (s.particle_data s.pingpong (3 * i + 2))

/-- The velocity that iteration `i` stores, second component. -/
def new_vel_y (sqrt : α → α) (div_zero : α → α) (S dt : α) (g : α × α) (s : SimState α)
    (i : Nat) : α :=
  s.particle_vels s.pingpong (2 * i + 1)
    + fdiv div_zero ((force_loop sqrt S s i g).2 * dt) (s.particle_data s.pingpong (3 * i + 2))

end Stored

section Reach

variable {α : Type} [Field α] [DecidableEq α]

/-- The states the globals can be in: the state at program start, and every
state that an `init_data`, whether it returns or throws, or a
`call_interact_kernel` leaves from such a state, with any arguments.
(`get_particle_data` assigns no global.) -/
inductive Reachable : SimState α → Prop
  | start : Reachable program_start
  | init (rem : Int → α → α) (rand : Nat → Int) (heap_ok : Nat → Bool)
      (fresh_vels fresh_data : Int → Nat → α)
      (s : SimState α) (h_num_particles : Int) (box_width box_height min_vel max_vel : α)
      (h_num_blocks h_num_threads_per_block h_algorithm : Int) (t : SimState α) :
      Reachable s →
      init_data rem rand heap_ok fresh_vels fresh_data s h_num_particles box_width
        box_height min_vel max_vel h_num_blocks h_num_threads_per_block h_algorithm
          = Except.ok t →
      Reachable t
  | init_throws (rem : Int → α → α) (rand : Nat → Int) (heap_ok : Nat → Bool)
      (fresh_vels fresh_data : Int → Nat → α)
      (s : SimState α) (h_num_particles : Int) (box_width box_height min_vel max_vel : α)
      (h_num_blocks h_num_threads_per_block h_algorithm : Int) (t : SimState α) :
      Reachable s →
      init_data rem rand heap_ok fresh_vels fresh_data s h_num_particles box_width
        box_height min_vel max_vel h_num_blocks h_num_threads_per_block h_algorithm
          = Except.error t →
      Reachable t
  | step (sqrt : α → α) (div_zero : α → α) (SOFT_FACTOR : α) (force_uninit : Nat → α × α)
      (dt : α) (s : SimState α) :
      Reachable s →
      Reachable (call_interact_kernel sqrt div_zero SOFT_FACTOR force_uninit dt s)

end Reach

section Basic

variable {α : Type} [Field α]

theorem pingpong_ne_other (p : Int) : p ≠ 1 - p := by omega

theorem fdiv_of_ne [DecidableEq α] (dz : α → α) (x y : α) (h : y ≠ 0) :
    fdiv dz x y = x / y := by
  simp [fdiv, h]

theorem fdiv_zero [DecidableEq α] (dz : α → α) (x : α) : fdiv dz x 0 = dz x := by
  simp [fdiv]

theorem interact_body_pingpong [DecidableEq α] (sqrt : α → α) (dz : α → α)
    (S dt : α) (g : α × α) (s : SimState α) (i : Nat) :
    (interact_body sqrt dz S dt g s i).pingpong = s.pingpong := rfl

theorem interact_body_num_particles [DecidableEq α] (sqrt : α → α) (dz : α → α)
    (S dt : α) (g : α × α) (s : SimState α)
    (i : Nat) : (interact_body sqrt dz S dt g s i).num_particles = s.num_particles := rfl

theorem interact_body_vels [DecidableEq α] (sqrt : α → α) (dz : α → α)
    (S dt : α) (g : α × α) (s : SimState α) (i : Nat)
    (b : Int) (k : Nat) :
    (interact_body sqrt dz S dt g s i).particle_vels b k =
      if b = 1 - s.pingpong ∧ k = 2 * i then new_vel_x sqrt dz S dt g s i
      else if b = 1 - s.pingpong ∧ k = 2 * i + 1 then new_vel_y sqrt dz S dt g s i
      else s.particle_vels b k := by
  have hp : ¬ (s.pingpong = 1 - s.pingpong) := pingpong_ne_other s.pingpong
  simp only [interact_body, store, new_vel_x, new_vel_y]
  by_cases hb : b = 1 - s.pingpong
  · subst hb
    by_cases hk : k = 2 * i
    · subst hk; simp [hp]
    · by_cases hk' : k = 2 * i + 1
      · subst hk'; simp [hp]
      · simp [hk, hk', hp]
  · simp [hb]

theorem interact_body_data [DecidableEq α] (sqrt : α → α) (dz : α → α)
    (S dt : α) (g : α × α) (s : SimState α) (i : Nat)
    (b : Int) (k : Nat) :
    (interact_body sqrt dz S dt g s i).particle_data b k =
      if b = 1 - s.pingpong ∧ k = 3 * i
        then s.particle_data s.pingpong (3 * i) + new_vel_x sqrt dz S dt g s i * dt
      else if b = 1 - s.pingpong ∧ k = 3 * i + 1
        then s.particle_data s.pingpong (3 * i + 1) + new_vel_y sqrt dz S dt g s i * dt
      else s.particle_data b k := by
  have hp : ¬ (s.pingpong = 1 - s.pingpong) := pingpong_ne_other s.pingpong
  simp only [interact_body, store, new_vel_x, new_vel_y]
  by_cases hb : b = 1 - s.pingpong
  · subst hb
    by_cases hk : k = 3 * i
    · subst hk; simp [hp]
    · by_cases hk' : k = 3 * i + 1
      · subst hk'; simp [hp]
      · simp [hk, hk', hp]
  · simp [hb]

/-- `add_force` reads nothing but the current `particle_data` array. -/
theorem add_force_congr (sqrt : α → α) (S : α) (s t : SimState α)
    (hp : t.pingpong = s.pingpong)
    (hd : ∀ k, t.particle_data s.pingpong k = s.particle_data s.pingpong k)
    (p1 p2 : Nat) (f : α × α) :
    add_force sqrt S t p1 p2 f = add_force sqrt S s p1 p2 f := by
  simp only [add_force, force_magnitude, dist_squared, x_dist, y_dist, hp, hd]

theorem force_loop_congr (sqrt : α → α) (S : α) (s t : SimState α)
    (hp : t.pingpong = s.pingpong) (hn : t.num_particles = s.num_particles)
    (hd : ∀ k, t.particle_data s.pingpong k = s.particle_data s.pingpong k)
    (i : Nat) (f : α × α) :
    force_loop sqrt S t i f = force_loop sqrt S s i f := by
  simp only [force_loop, hn]
  congr 1
  funext f j
  exact add_force_congr sqrt S s t hp hd i j f

theorem new_vel_x_congr [DecidableEq α] (sqrt : α → α) (dz : α → α)
    (S dt : α) (g : α × α) (s t : SimState α)
    (hp : t.pingpong = s.pingpong) (hn : t.num_particles = s.num_particles)
    (hd : ∀ k, t.particle_data s.pingpong k = s.particle_data s.pingpong k)
    (hv : ∀ k, t.particle_vels s.pingpong k = s.particle_vels s.pingpong k) (i : Nat) :
    new_vel_x sqrt dz S dt g t i = new_vel_x sqrt dz S dt g s i := by
  simp only [new_vel_x, force_loop_congr sqrt S s t hp hn hd, hp, hd, hv]

theorem new_vel_y_congr [DecidableEq α] (sqrt : α → α) (dz : α → α)
    (S dt : α) (g : α × α) (s t : SimState α)
    (hp : t.pingpong = s.pingpong) (hn : t.num_particles = s.num_particles)
    (hd : ∀ k, t.particle_data s.pingpong k = s.particle_data s.pingpong k)
    (hv : ∀ k, t.particle_vels s.pingpong k = s.particle_vels s.pingpong k) (i : Nat) :
    new_vel_y sqrt dz S dt g t i = new_vel_y sqrt dz S dt g s i := by
  simp only [new_vel_y, force_loop_congr sqrt S s t hp hn hd, hp, hd, hv]

theorem interact_body_cur_data [DecidableEq α] (sqrt : α → α) (dz : α → α)
    (S dt : α) (g : α × α) (s : SimState α)
    (i k : Nat) :
    (interact_body sqrt dz S dt g s i).particle_data s.pingpong k = s.particle_data s.pingpong k := by
  have hp : ¬ (s.pingpong = 1 - s.pingpong) := pingpong_ne_other s.pingpong
  rw [interact_body_data]; simp [hp]

theorem interact_body_cur_vels [DecidableEq α] (sqrt : α → α) (dz : α → α)
    (S dt : α) (g : α × α) (s : SimState α)
    (i k : Nat) :
    (interact_body sqrt dz S dt g s i).particle_vels s.pingpong k = s.particle_vels s.pingpong k := by
  have hp : ¬ (s.pingpong = 1 - s.pingpong) := pingpong_ne_other s.pingpong
  rw [interact_body_vels]; simp [hp]

theorem interact_fold_nil [DecidableEq α] (sqrt : α → α) (dz : α → α)
    (S : α) (u : Nat → α × α) (dt : α) (s : SimState α) :
    interact_fold sqrt dz S u dt [] s = s := rfl

theorem interact_fold_cons [DecidableEq α] (sqrt : α → α) (dz : α → α)
    (S : α) (u : Nat → α × α) (dt : α) (a : Nat)
    (l : List Nat) (s : SimState α) :
    interact_fold sqrt dz S u dt (a :: l) s
      = interact_fold sqrt dz S u dt l (interact_body sqrt dz S dt (u a) s a) := rfl

theorem interact_fold_pingpong [DecidableEq α] (sqrt : α → α) (dz : α → α)
    (S : α) (u : Nat → α × α) (dt : α)
    (l : List Nat) (s : SimState α) :
    (interact_fold sqrt dz S u dt l s).pingpong = s.pingpong := by
  induction l generalizing s with
  | nil => rfl
  | cons a l ih => rw [interact_fold_cons, ih, interact_body_pingpong]

theorem interact_fold_num_particles [DecidableEq α] (sqrt : α → α) (dz : α → α)
    (S : α) (u : Nat → α × α) (dt : α)
    (l : List Nat) (s : SimState α) :
    (interact_fold sqrt dz S u dt l s).num_particles = s.num_particles := by
  induction l generalizing s with
  | nil => rfl
  | cons a l ih => rw [interact_fold_cons, ih, interact_body_num_particles]

/-- The velocity arrays after the outer loop has run over the indices in `l`:
slots `2 * i` and `2 * i + 1` of the other buffer hold the new velocity of
every `i` in `l`, every other slot is as before. -/
theorem interact_fold_vels [DecidableEq α] (sqrt : α → α) (dz : α → α)
    (S : α) (u : Nat → α × α) (dt : α)
    (l : List Nat) (s : SimState α) (b : Int) (k : Nat) :
    (interact_fold sqrt dz S u dt l s).particle_vels b k =
      if b = 1 - s.pingpong ∧ k / 2 ∈ l then
        (if k % 2 = 0 then new_vel_x sqrt dz S dt (u (k / 2)) s (k / 2)
         else new_vel_y sqrt dz S dt (u (k / 2)) s (k / 2))
      else s.particle_vels b k := by
  induction l generalizing s with
  | nil => simp [interact_fold_nil]
  | cons a l ih =>
    rw [interact_fold_cons, ih, interact_body_pingpong]
    have hx := new_vel_x_congr sqrt dz S dt (u (k / 2)) s (interact_body sqrt dz S dt (u a) s a)
      rfl rfl (interact_body_cur_data sqrt dz S dt (u a) s a)
      (interact_body_cur_vels sqrt dz S dt (u a) s a) (k / 2)
    have hy := new_vel_y_congr sqrt dz S dt (u (k / 2)) s (interact_body sqrt dz S dt (u a) s a)
      rfl rfl (interact_body_cur_data sqrt dz S dt (u a) s a)
      (interact_body_cur_vels sqrt dz S dt (u a) s a) (k / 2)
    rw [hx, hy, interact_body_vels]
    by_cases hb : b = 1 - s.pingpong
    · by_cases hl : k / 2 ∈ l
      · simp [hb, hl]
      · by_cases hk : k / 2 = a
        · subst hk
          by_cases h2 : k % 2 = 0
          · have : k = 2 * (k / 2) := by omega
            simp [hb, hl, h2, ← this]
          · have h3 : k = 2 * (k / 2) + 1 := by omega
            have h4 : ¬ (k = 2 * (k / 2)) := by omega
            simp [hb, hl, h2, ← h3, h4]
        · have h1 : ¬ (k = 2 * a) := by omega
          have h2 : ¬ (k = 2 * a + 1) := by omega
          simp [hb, hl, hk, h1, h2]
    · simp [hb]

/-- The position+mass arrays after the outer loop has run over the indices in
`l`: slots `3 * i` and `3 * i + 1` of the other buffer hold the new position
of every `i` in `l`; every other slot, the mass slots `3 * i + 2` included, is
as before. -/
theorem interact_fold_data [DecidableEq α] (sqrt : α → α) (dz : α → α)
    (S : α) (u : Nat → α × α) (dt : α)
    (l : List Nat) (s : SimState α) (b : Int) (k : Nat) :
    (interact_fold sqrt dz S u dt l s).particle_data b k =
      if b = 1 - s.pingpong ∧ k / 3 ∈ l ∧ k % 3 ≠ 2 then
        (if k % 3 = 0
          then s.particle_data s.pingpong k + new_vel_x sqrt dz S dt (u (k / 3)) s (k / 3) * dt
          else s.particle_data s.pingpong k + new_vel_y sqrt dz S dt (u (k / 3)) s (k / 3) * dt)
      else s.particle_data b k := by
  induction l generalizing s with
  | nil => simp [interact_fold_nil]
  | cons a l ih =>
    rw [interact_fold_cons, ih, interact_body_pingpong]
    have hx := new_vel_x_congr sqrt dz S dt (u (k / 3)) s (interact_body sqrt dz S dt (u a) s a)
      rfl rfl (interact_body_cur_data sqrt dz S dt (u a) s a)
      (interact_body_cur_vels sqrt dz S dt (u a) s a) (k / 3)
    have hy := new_vel_y_congr sqrt dz S dt (u (k / 3)) s (interact_body sqrt dz S dt (u a) s a)
      rfl rfl (interact_body_cur_data sqrt dz S dt (u a) s a)
      (interact_body_cur_vels sqrt dz S dt (u a) s a) (k / 3)
    rw [hx, hy, interact_body_cur_data, interact_body_data]
    by_cases hb : b = 1 - s.pingpong
    · by_cases hl : k / 3 ∈ l
      · by_cases h2 : k % 3 = 2
        · have h4 : ¬ (k = 3 * a) := by omega
          have h5 : ¬ (k = 3 * a + 1) := by omega
          simp [hb, hl, h2, h4, h5]
        · simp [hb, hl, h2]
      · by_cases hk : k / 3 = a
        · subst hk
          by_cases h0 : k % 3 = 0
          · have h3 : k = 3 * (k / 3) := by omega
            simp [hb, hl, h0, ← h3]
          · by_cases h1 : k % 3 = 1
            · have h3 : k = 3 * (k / 3) + 1 := by omega
              have h4 : ¬ (k = 3 * (k / 3)) := by omega
              simp [hb, hl, h0, h1, ← h3, h4]
            · have h2 : k % 3 = 2 := by omega
              have h4 : ¬ (k = 3 * (k / 3)) := by omega
              have h5 : ¬ (k = 3 * (k / 3) + 1) := by omega
              simp [hb, hl, h2, h4, h5]
        · have h1 : ¬ (k = 3 * a) := by omega
          have h2 : ¬ (k = 3 * a + 1) := by omega
          simp [hb, hl, hk, h1, h2]
    · simp [hb]

/-- In ascending order from position `k` the iteration in position `i`
handles particle `i`. -/
theorem interact_loop_from_range [DecidableEq α] (sqrt : α → α) (dz : α → α) (S : α)
    (u : Nat → α × α) (dt : α) (m k : Nat) (s : SimState α) :
    interact_loop_from sqrt dz S u dt k (List.range' k m) s
      = interact_fold sqrt dz S u dt (List.range' k m) s := by
  induction m generalizing k s with
  | zero => rfl
  | succ m ih =>
    rw [List.range'_succ, interact_fold_cons]
    show interact_loop_from sqrt dz S u dt (k + 1) (List.range' (k + 1) m)
      (interact_body sqrt dz S dt (u k) s k) = _
    rw [ih]

theorem interact_loop_range [DecidableEq α] (sqrt : α → α) (dz : α → α) (S : α)
    (u : Nat → α × α) (dt : α) (n : Nat) (s : SimState α) :
    interact_loop sqrt dz S u dt (List.range n) s
      = interact_fold sqrt dz S u dt (List.range n) s := by
  rw [List.range_eq_range']
  exact interact_loop_from_range sqrt dz S u dt n 0 s

theorem call_interact_kernel_pingpong [DecidableEq α] (sqrt : α → α) (dz : α → α)
    (S : α) (u : Nat → α × α) (dt : α)
    (s : SimState α) :
    (call_interact_kernel sqrt dz S u dt s).pingpong = 1 - s.pingpong := by
  simp [call_interact_kernel, interact_loop_range, interact_fold_pingpong]

theorem call_interact_kernel_num_particles [DecidableEq α] (sqrt : α → α) (dz : α → α)
    (S : α) (u : Nat → α × α) (dt : α)
    (s : SimState α) :
    (call_interact_kernel sqrt dz S u dt s).num_particles = s.num_particles := by
  simp [call_interact_kernel, interact_loop_range, interact_fold_num_particles]

theorem mem_range_toNat (n : Int) (i : Nat) :
    i ∈ List.range n.toNat ↔ (i : Int) < n := by
  rw [List.mem_range]; omega

/-- The velocity arrays after `call_interact_kernel`. -/
theorem call_interact_kernel_vels [DecidableEq α] (sqrt : α → α) (dz : α → α)
    (S : α) (u : Nat → α × α) (dt : α)
    (s : SimState α) (b : Int) (k : Nat) :
    (call_interact_kernel sqrt dz S u dt s).particle_vels b k =
      if b = 1 - s.pingpong ∧ ((k / 2 : Nat) : Int) < s.num_particles then
        (if k % 2 = 0 then new_vel_x sqrt dz S dt (u (k / 2)) s (k / 2)
         else new_vel_y sqrt dz S dt (u (k / 2)) s (k / 2))
      else s.particle_vels b k := by
  simp only [call_interact_kernel, interact_loop_range, interact_fold_vels, mem_range_toNat]

/-- The position+mass arrays after `call_interact_kernel`. -/
theorem call_interact_kernel_data [DecidableEq α] (sqrt : α → α) (dz : α → α)
    (S : α) (u : Nat → α × α) (dt : α)
    (s : SimState α) (b : Int) (k : Nat) :
    (call_interact_kernel sqrt dz S u dt s).particle_data b k =
      if b = 1 - s.pingpong ∧ ((k / 3 : Nat) : Int) < s.num_particles ∧ k % 3 ≠ 2 then
        (if k % 3 = 0
          then s.particle_data s.pingpong k + new_vel_x sqrt dz S dt (u (k / 3)) s (k / 3) * dt
          else s.particle_data s.pingpong k + new_vel_y sqrt dz S dt (u (k / 3)) s (k / 3) * dt)
      else s.particle_data b k := by
  simp only [call_interact_kernel, interact_loop_range, interact_fold_data, mem_range_toNat]

/-- The size of one softened force component: with `x ^ 2 ≤ d` and
`0 < S ≤ d`, the term `x * (M / d) / sqrt d` is at most `M / S` in absolute
value. -/
theorem softened_term_bound (x d S M : ℝ) (hS : 0 < S) (hd : S ≤ d) (hx : x ^ 2 ≤ d)
    (hM : 0 ≤ M) : |x * (M / d) / Real.sqrt d| ≤ M / S := by
  have hd0 : 0 < d := lt_of_lt_of_le hS hd
  have hs : 0 < Real.sqrt d := Real.sqrt_pos.mpr hd0
  have hxs : |x| ≤ Real.sqrt d := Real.abs_le_sqrt hx
  have hMd : 0 ≤ M / d := div_nonneg hM hd0.le
  have hMS : M / d ≤ M / S := div_le_div_of_nonneg_left hM hS hd
  rw [abs_div, abs_mul, abs_of_pos hs, abs_of_nonneg hMd, div_le_iff₀ hs]
  calc |x| * (M / d) ≤ Real.sqrt d * (M / S) := mul_le_mul hxs hMS hMd hs.le
    _ = M / S * Real.sqrt d := by ring

theorem dist_squared_ge (S : ℝ) (h0 : 0 ≤ S) (s : SimState ℝ) (p1 p2 : Nat) :
    S ≤ dist_squared S s p1 p2 ∧ x_dist s p1 p2 ^ 2 ≤ dist_squared S s p1 p2 ∧
      y_dist s p1 p2 ^ 2 ≤ dist_squared S s p1 p2 := by
  have hx := mul_self_nonneg (x_dist s p1 p2)
  have hy := mul_self_nonneg (y_dist s p1 p2)
  simp only [dist_squared]
  refine ⟨by linarith, by nlinarith, by nlinarith⟩

/-- What `call_interact_kernel` stores for a particle `i < num_particles`: the
velocity and position formulas of the step, with the force read from the
array `force` after the inner loop, started on its content `u i`. -/
theorem call_interact_kernel_particle [DecidableEq α] (sqrt : α → α) (dz : α → α)
    (S : α) (u : Nat → α × α) (dt : α)
    (s : SimState α) (i : Nat) (hi : (i : Int) < s.num_particles) :
    (call_interact_kernel sqrt dz S u dt s).particle_vels (1 - s.pingpong) (2 * i)
      = s.particle_vels s.pingpong (2 * i)
        + fdiv dz ((force_loop sqrt S s i (u i)).1 * dt)
            (s.particle_data s.pingpong (3 * i + 2)) ∧
    (call_interact_kernel sqrt dz S u dt s).particle_vels (1 - s.pingpong) (2 * i + 1)
      = s.particle_vels s.pingpong (2 * i + 1)
        + fdiv dz ((force_loop sqrt S s i (u i)).2 * dt)
            (s.particle_data s.pingpong (3 * i + 2)) ∧
    (call_interact_kernel sqrt dz S u dt s).particle_data (1 - s.pingpong) (3 * i)
      = s.particle_data s.pingpong (3 * i)
        + (call_interact_kernel sqrt dz S u dt s).particle_vels (1 - s.pingpong) (2 * i) * dt ∧
    (call_interact_kernel sqrt dz S u dt s).particle_data (1 - s.pingpong) (3 * i + 1)
      = s.particle_data s.pingpong (3 * i + 1)
        + (call_interact_kernel sqrt dz S u dt s).particle_vels (1 - s.pingpong) (2 * i + 1)
          * dt := by
  have e1 : (3 * i) / 3 = i := by omega
  have e2 : (3 * i) % 3 = 0 := by omega
  have e3 : (3 * i + 1) / 3 = i := by omega
  have e4 : (3 * i + 1) % 3 = 1 := by omega
  have e5 : (2 * i) / 2 = i := by omega
  have e6 : (2 * i) % 2 = 0 := by omega
  have e7 : (2 * i + 1) / 2 = i := by omega
  have e8 : (2 * i + 1) % 2 = 1 := by omega
  simp only [call_interact_kernel_vels, call_interact_kernel_data, e1, e2, e3, e4, e5, e6, e7,
    e8]
  simp [hi, new_vel_x, new_vel_y]

/-- With the same initial contents of the local array `force`, the values the
step stores depend on the state only through `pingpong`, `num_particles` and
the current buffer. -/
theorem call_interact_kernel_congr [DecidableEq α] (sqrt : α → α) (dz : α → α)
    (S : α) (u : Nat → α × α) (dt : α)
    (s t : SimState α) (hp : t.pingpong = s.pingpong)
    (hn : t.num_particles = s.num_particles)
    (hd : ∀ k, t.particle_data s.pingpong k = s.particle_data s.pingpong k)
    (hv : ∀ k, t.particle_vels s.pingpong k = s.particle_vels s.pingpong k)
    (i : Nat) (hi : (i : Int) < s.num_particles) :
    (call_interact_kernel sqrt dz S u dt t).particle_vels (1 - s.pingpong) (2 * i)
      = (call_interact_kernel sqrt dz S u dt s).particle_vels (1 - s.pingpong) (2 * i) ∧
    (call_interact_kernel sqrt dz S u dt t).particle_vels (1 - s.pingpong) (2 * i + 1)
      = (call_interact_kernel sqrt dz S u dt s).particle_vels (1 - s.pingpong) (2 * i + 1) ∧
    (call_interact_kernel sqrt dz S u dt t).particle_data (1 - s.pingpong) (3 * i)
      = (call_interact_kernel sqrt dz S u dt s).particle_data (1 - s.pingpong) (3 * i) ∧
    (call_interact_kernel sqrt dz S u dt t).particle_data (1 - s.pingpong) (3 * i + 1)
      = (call_interact_kernel sqrt dz S u dt s).particle_data (1 - s.pingpong) (3 * i + 1) := by
  have hit : (i : Int) < t.num_particles := hn ▸ hi
  have hs := call_interact_kernel_particle sqrt dz S u dt s i hi
  have ht := call_interact_kernel_particle sqrt dz S u dt t i hit
  rw [hp] at ht
  obtain ⟨s1, s2, s3, s4⟩ := hs
  obtain ⟨t1, t2, t3, t4⟩ := ht
  have hf := force_loop_congr sqrt S s t hp hn hd i (u i)
  have a1 : (call_interact_kernel sqrt dz S u dt t).particle_vels (1 - s.pingpong) (2 * i)
      = (call_interact_kernel sqrt dz S u dt s).particle_vels (1 - s.pingpong) (2 * i) := by
    rw [t1, s1, hf, hd, hv]
  have a2 : (call_interact_kernel sqrt dz S u dt t).particle_vels (1 - s.pingpong) (2 * i + 1)
      = (call_interact_kernel sqrt dz S u dt s).particle_vels (1 - s.pingpong) (2 * i + 1) := by
    rw [t2, s2, hf, hd, hv]
  refine ⟨a1, a2, ?_, ?_⟩
  · rw [t3, s3, a1, hd]
  · rw [t4, s4, a2, hd]

theorem add_force_same (sqrt : α → α) (S : α) (s : SimState α) (i : Nat) (f : α × α) :
    add_force sqrt S s i i f = f := by
  simp [add_force, x_dist, y_dist]

theorem sqrt_twenty_five : Real.sqrt 25 = 5 := by
  rw [show (25 : ℝ) = 5 ^ 2 by norm_num]
  exact Real.sqrt_sq (by norm_num)

/-- The golden scenario when the local array `force` happens to hold `(0, 0)`
at the start of both iterations: the step yields the values of the
specification for every softening factor `S`. -/
theorem golden_step_zero_force (dz : ℝ → ℝ) (S : ℝ) :
    dist_squared S (golden_state ℝ) 0 1 = 16 + S ∧
    force_magnitude S (golden_state ℝ) 0 1 = 1 / (16 + S) ∧
    (call_interact_kernel Real.sqrt dz S (fun _ => (0, 0)) 1 (golden_state ℝ)).pingpong = 1 ∧
    (call_interact_kernel Real.sqrt dz S (fun _ => (0, 0)) 1 (golden_state ℝ)).particle_vels 1 0
      = 4 / ((16 + S) * Real.sqrt (16 + S)) ∧
    (call_interact_kernel Real.sqrt dz S (fun _ => (0, 0)) 1 (golden_state ℝ)).particle_vels 1 1
      = 0 ∧
    (call_interact_kernel Real.sqrt dz S (fun _ => (0, 0)) 1 (golden_state ℝ)).particle_data 1 0
      = 4 / ((16 + S) * Real.sqrt (16 + S)) ∧
    (call_interact_kernel Real.sqrt dz S (fun _ => (0, 0)) 1 (golden_state ℝ)).particle_data 1 1
      = 0 ∧
    (call_interact_kernel Real.sqrt dz S (fun _ => (0, 0)) 1 (golden_state ℝ)).particle_vels 1 2
      = -4 / ((16 + S) * Real.sqrt (16 + S)) ∧
    (call_interact_kernel Real.sqrt dz S (fun _ => (0, 0)) 1 (golden_state ℝ)).particle_vels 1 3
      = 0 ∧
    (call_interact_kernel Real.sqrt dz S (fun _ => (0, 0)) 1 (golden_state ℝ)).particle_data 1 3
      = 4 - 4 / ((16 + S) * Real.sqrt (16 + S)) ∧
    (call_interact_kernel Real.sqrt dz S (fun _ => (0, 0)) 1 (golden_state ℝ)).particle_data 1 4
      = 0 := by
  have hd : dist_squared S (golden_state ℝ) 0 1 = 16 + S := by
    simp [dist_squared, x_dist, y_dist, golden_state]; norm_num
  have hd' : dist_squared S (golden_state ℝ) 1 0 = 16 + S := by
    simp [dist_squared, x_dist, y_dist, golden_state]; norm_num
  have hm : force_magnitude S (golden_state ℝ) 0 1 = 1 / (16 + S) := by
    rw [force_magnitude, hd]; simp [golden_state]
  have hm' : force_magnitude S (golden_state ℝ) 1 0 = 1 / (16 + S) := by
    rw [force_magnitude, hd']; simp [golden_state]
  have hx : x_dist (golden_state ℝ) 0 1 = -4 := by simp [x_dist, golden_state]
  have hx' : x_dist (golden_state ℝ) 1 0 = 4 := by simp [x_dist, golden_state]
  have hy : y_dist (golden_state ℝ) 0 1 = 0 := by simp [y_dist, golden_state]
  have hy' : y_dist (golden_state ℝ) 1 0 = 0 := by simp [y_dist, golden_state]
  have f0 : force_loop Real.sqrt S (golden_state ℝ) 0 (0, 0)
      = (4 / ((16 + S) * Real.sqrt (16 + S)), 0) := by
    have hr : (golden_state ℝ).num_particles.toNat = 2 := rfl
    simp only [force_loop, hr, List.range_succ, List.range_zero, List.nil_append,
      List.cons_append, List.foldl_cons, List.foldl_nil, add_force_same]
    simp only [add_force, hd, hm, hx, hy]
    ext
    · simp only; rw [div_mul_eq_div_div 4]; ring
    · simp
  have f1 : force_loop Real.sqrt S (golden_state ℝ) 1 (0, 0)
      = (-4 / ((16 + S) * Real.sqrt (16 + S)), 0) := by
    have hr : (golden_state ℝ).num_particles.toNat = 2 := rfl
    simp only [force_loop, hr, List.range_succ, List.range_zero, List.nil_append,
      List.cons_append, List.foldl_cons, List.foldl_nil, add_force_same]
    simp only [add_force, hd', hm', hx', hy']
    ext
    · simp only; rw [div_mul_eq_div_div (-4)]; ring
    · simp
  have v0 : new_vel_x Real.sqrt dz S 1 0 (golden_state ℝ) 0
      = 4 / ((16 + S) * Real.sqrt (16 + S)) := by
    rw [new_vel_x, show (0 : ℝ × ℝ) = (0, 0) from rfl, f0]; simp [golden_state, fdiv]
  have w0 : new_vel_y Real.sqrt dz S 1 0 (golden_state ℝ) 0 = 0 := by
    rw [new_vel_y, show (0 : ℝ × ℝ) = (0, 0) from rfl, f0]; simp [golden_state, fdiv]
  have v1 : new_vel_x Real.sqrt dz S 1 0 (golden_state ℝ) 1
      = -4 / ((16 + S) * Real.sqrt (16 + S)) := by
    rw [new_vel_x, show (0 : ℝ × ℝ) = (0, 0) from rfl, f1]; simp [golden_state, fdiv]
  have w1 : new_vel_y Real.sqrt dz S 1 0 (golden_state ℝ) 1 = 0 := by
    rw [new_vel_y, show (0 : ℝ × ℝ) = (0, 0) from rfl, f1]; simp [golden_state, fdiv]
  have hp : (golden_state ℝ).pingpong = 0 := rfl
  have hn : (golden_state ℝ).num_particles = 2 := rfl
  have d0 : (golden_state ℝ).particle_data 0 0 = 0 := by simp [golden_state]
  have d1 : (golden_state ℝ).particle_data 0 1 = 0 := by simp [golden_state]
  have d3 : (golden_state ℝ).particle_data 0 3 = 4 := by simp [golden_state]
  have d4 : (golden_state ℝ).particle_data 0 4 = 0 := by simp [golden_state]
  refine ⟨hd, hm, by rw [call_interact_kernel_pingpong, hp]; rfl, ?_, ?_, ?_, ?_, ?_, ?_, ?_, ?_⟩
  · rw [call_interact_kernel_vels]; simp [hp, hn, v0]
  · rw [call_interact_kernel_vels]; simp [hp, hn, w0]
  · rw [call_interact_kernel_data]; simp [hp, hn, v0, d0]
  · rw [call_interact_kernel_data]; simp [hp, hn, w0, d1]
  · rw [call_interact_kernel_vels]; simp [hp, hn, v1]
  · rw [call_interact_kernel_vels]; simp [hp, hn, w1]
  · rw [call_interact_kernel_data]; simp [hp, hn, v1, d3]; ring
  · rw [call_interact_kernel_data]; simp [hp, hn, w1, d4]

end Basic

section Claims

variable {α : Type} [Field α]

/-- C5: `call_interact_kernel(dt)` leaves every slot of the buffer that was
current before the call unchanged, in the position+mass array and in the
velocity array, and a slot of either array that it does change lies in the
buffer indexed `1 - pingpong`. -/
theorem call_interact_kernel_frame [DecidableEq α] (sqrt : α → α) (dz : α → α)
    (S : α) (u : Nat → α × α) (dt : α)
    (s : SimState α) :
    (∀ k, (call_interact_kernel sqrt dz S u dt s).particle_data s.pingpong k
        = s.particle_data s.pingpong k) ∧
    (∀ k, (call_interact_kernel sqrt dz S u dt s).particle_vels s.pingpong k
        = s.particle_vels s.pingpong k) ∧
    (∀ b k, b = 1 - s.pingpong ∨
      ((call_interact_kernel sqrt dz S u dt s).particle_data b k = s.particle_data b k ∧
       (call_interact_kernel sqrt dz S u dt s).particle_vels b k = s.particle_vels b k)) := by
  have hp : ¬ (s.pingpong = 1 - s.pingpong) := pingpong_ne_other s.pingpong
  refine ⟨fun k => ?_, fun k => ?_, fun b k => ?_⟩
  · rw [call_interact_kernel_data]; simp [hp]
  · rw [call_interact_kernel_vels]; simp [hp]
  · by_cases hb : b = 1 - s.pingpong
    · exact Or.inl hb
    · right
      rw [call_interact_kernel_data, call_interact_kernel_vels]
      simp [hb]

/-- With `dt = 0` the stored velocity of a particle `i < num_particles` is its
old velocity plus the quotient of 0 by its mass. -/
theorem call_interact_kernel_zero_dt_vels [DecidableEq α] (sqrt : α → α) (dz : α → α) (S : α)
    (u : Nat → α × α) (s : SimState α) (i : Nat) (hi : (i : Int) < s.num_particles) :
    (call_interact_kernel sqrt dz S u 0 s).particle_vels (1 - s.pingpong) (2 * i)
      = s.particle_vels s.pingpong (2 * i)
        + fdiv dz 0 (s.particle_data s.pingpong (3 * i + 2)) ∧
    (call_interact_kernel sqrt dz S u 0 s).particle_vels (1 - s.pingpong) (2 * i + 1)
      = s.particle_vels s.pingpong (2 * i + 1)
        + fdiv dz 0 (s.particle_data s.pingpong (3 * i + 2)) := by
  obtain ⟨h1, h2, -, -⟩ := call_interact_kernel_particle sqrt dz S u 0 s i hi
  rw [h1, h2, mul_zero, mul_zero]
  exact ⟨rfl, rfl⟩

/-- For a particle `i < num_particles` whose mass in the current buffer is not
zero, `call_interact_kernel(0)` flips the pingpong flag and the buffer that
becomes current holds the position and the velocity that the previously
current buffer held for `i`. -/
theorem zero_dt_of_nonzero_mass [DecidableEq α] (sqrt : α → α) (dz : α → α) (S : α)
    (u : Nat → α × α) (s : SimState α) (i : Nat) (hi : (i : Int) < s.num_particles)
    (hm : s.particle_data s.pingpong (3 * i + 2) ≠ 0) :
    (call_interact_kernel sqrt dz S u 0 s).pingpong = 1 - s.pingpong ∧
    (call_interact_kernel sqrt dz S u 0 s).particle_data
        (call_interact_kernel sqrt dz S u 0 s).pingpong (3 * i)
      = s.particle_data s.pingpong (3 * i) ∧
    (call_interact_kernel sqrt dz S u 0 s).particle_data
        (call_interact_kernel sqrt dz S u 0 s).pingpong (3 * i + 1)
      = s.particle_data s.pingpong (3 * i + 1) ∧
    (call_interact_kernel sqrt dz S u 0 s).particle_vels
        (call_interact_kernel sqrt dz S u 0 s).pingpong (2 * i)
      = s.particle_vels s.pingpong (2 * i) ∧
    (call_interact_kernel sqrt dz S u 0 s).particle_vels
        (call_interact_kernel sqrt dz S u 0 s).pingpong (2 * i + 1)
      = s.particle_vels s.pingpong (2 * i + 1) := by
  obtain ⟨-, -, h3, h4⟩ := call_interact_kernel_particle sqrt dz S u 0 s i hi
  obtain ⟨v1, v2⟩ := call_interact_kernel_zero_dt_vels sqrt dz S u s i hi
  rw [fdiv_of_ne dz 0 _ hm, zero_div, add_zero] at v1 v2
  rw [call_interact_kernel_pingpong]
  refine ⟨rfl, ?_, ?_, v1, v2⟩
  · rw [h3, mul_zero, add_zero]
  · rw [h4, mul_zero, add_zero]

theorem seeded_run_returns : ∃ st : SimState ℝ, seeded_run ℝ = Except.ok st := ⟨_, rfl⟩

/-- The state one `call_interact_kernel(1)` after `seeded_run`: buffer 1 is
current and holds velocity 3 and mass 0 for the particle. -/
theorem seeded_step_state (dz : ℝ → ℝ) (st : SimState ℝ)
    (h : seeded_run ℝ = Except.ok st) :
    (call_interact_kernel Real.sqrt dz 1 (fun _ => (0, 0)) 1 st).pingpong = 1 ∧
    (call_interact_kernel Real.sqrt dz 1 (fun _ => (0, 0)) 1 st).num_particles = 1 ∧
    (call_interact_kernel Real.sqrt dz 1 (fun _ => (0, 0)) 1 st).particle_vels 1 0 = 3 ∧
    (call_interact_kernel Real.sqrt dz 1 (fun _ => (0, 0)) 1 st).particle_data 1 2 = 0 := by
  have e := Except.ok.inj h
  subst e
  refine ⟨?_, ?_, ?_, ?_⟩
  · rw [call_interact_kernel_pingpong]; rfl
  · rw [call_interact_kernel_num_particles]; rfl
  · rw [call_interact_kernel_vels]
    simp [new_vel_x, fdiv, force_loop, add_force, x_dist, y_dist, init_body, store,
      assign_array, program_start, List.range_succ]
  · rw [call_interact_kernel_data]
    simp [init_body, store, assign_array, program_start, List.range_succ]

/-- C6, evaluation: `init_data`, one `call_interact_kernel(1)`, then
`call_interact_kernel(0)`.  Before the zero step the current buffer holds
velocity 3 and, since no step stores a mass, mass 0 for the particle.  The
zero step divides `force[0] * 0` by that mass: the velocity it stores is 3
plus what the float division of 0 by 0 leaves, for which `dz 0` stands, so it
is the old velocity only if that is 0. -/
theorem zero_dt_divides_by_stale_mass (dz : ℝ → ℝ) :
    ∃ st : SimState ℝ, seeded_run ℝ = Except.ok st ∧
      (call_interact_kernel Real.sqrt dz 1 (fun _ => (0, 0)) 1 st).particle_data
        (call_interact_kernel Real.sqrt dz 1 (fun _ => (0, 0)) 1 st).pingpong (3 * 0 + 2) = 0 ∧
      (call_interact_kernel Real.sqrt dz 1 (fun _ => (0, 0)) 1 st).particle_vels
        (call_interact_kernel Real.sqrt dz 1 (fun _ => (0, 0)) 1 st).pingpong (2 * 0) = 3 ∧
      (call_interact_kernel Real.sqrt dz 1 (fun _ => (0, 0)) 0
          (call_interact_kernel Real.sqrt dz 1 (fun _ => (0, 0)) 1 st)).particle_vels
        (call_interact_kernel Real.sqrt dz 1 (fun _ => (0, 0)) 0
          (call_interact_kernel Real.sqrt dz 1 (fun _ => (0, 0)) 1 st)).pingpong (2 * 0)
        = 3 + dz 0 := by
  obtain ⟨st, h⟩ := seeded_run_returns
  refine ⟨st, h, ?_⟩
  obtain ⟨hp, hn, hv, hm⟩ := seeded_step_state dz st h
  have hi : ((0 : Nat) : Int)
      < (call_interact_kernel Real.sqrt dz 1 (fun _ => (0, 0)) 1 st).num_particles := by
    rw [hn]; decide
  have hz := (call_interact_kernel_zero_dt_vels Real.sqrt dz 1 (fun _ => (0, 0))
    (call_interact_kernel Real.sqrt dz 1 (fun _ => (0, 0)) 1 st) 0 hi).1
  have hv2 : (call_interact_kernel Real.sqrt dz 1 (fun _ => (0, 0)) 1 st).particle_vels 1
      (2 * 0) = 3 := hv
  have hm2 : (call_interact_kernel Real.sqrt dz 1 (fun _ => (0, 0)) 1 st).particle_data 1
      (3 * 0 + 2) = 0 := hm
  have hq := call_interact_kernel_pingpong Real.sqrt dz 1 (fun _ => (0, 0)) 0
    (call_interact_kernel Real.sqrt dz 1 (fun _ => (0, 0)) 1 st)
  refine ⟨?_, ?_, ?_⟩
  · rw [hp]; exact hm2
  · rw [hp]; exact hv2
  · rw [hq, hz, hp, hv2, hm2, fdiv_zero]

/-- C7: for every state, every index `i` and every content of the
accumulator, `add_force(i, i, force)` leaves both components of `force` as
they were.  The definition of `add_force` has no case distinction on
`p1 == p2`. -/
theorem add_force_self (sqrt : α → α) (S : α) (s : SimState α) (i : Nat) (force : α × α) :
    add_force sqrt S s i i force = force := by
  simp [add_force, x_dist, y_dist]

/-- C8: for every state and all indices `p1`, `p2`, what `add_force(p1, p2)`
adds to a zero accumulator is, in each component, the negation of what
`add_force(p2, p1)` adds to a zero accumulator. -/
theorem add_force_antisymmetric (sqrt : α → α) (S : α) (s : SimState α) (p1 p2 : Nat) :
    (add_force sqrt S s p1 p2 (0, 0)).1 = -(add_force sqrt S s p2 p1 (0, 0)).1 ∧
    (add_force sqrt S s p1 p2 (0, 0)).2 = -(add_force sqrt S s p2 p1 (0, 0)).2 := by
  have hd : dist_squared S s p2 p1 = dist_squared S s p1 p2 := by
    simp only [dist_squared, x_dist, y_dist]; ring
  have hm : force_magnitude S s p2 p1 = force_magnitude S s p1 p2 := by
    simp only [force_magnitude, hd]; ring
  have hx : x_dist s p2 p1 = -x_dist s p1 p2 := by simp only [x_dist]; ring
  have hy : y_dist s p2 p1 = -y_dist s p1 p2 := by simp only [y_dist]; ring
  simp only [add_force, hd, hm, hx, hy]
  constructor <;> ring

/-- C10: with `SOFT_FACTOR > 0` and non-negative masses of `p1` and `p2`,
`dist_squared` in `add_force` is at least `SOFT_FACTOR`, so neither
`dist_squared` nor its square root, the two divisors, is zero, and each
component of what `add_force` adds to the accumulator is at most
`mass[p1] * mass[p2] / SOFT_FACTOR` in absolute value, wherever the two
particles are. -/
theorem add_force_softened (S : ℝ) (hS : 0 < S) (s : SimState ℝ) (p1 p2 : Nat)
    (h1 : 0 ≤ s.particle_data s.pingpong (3 * p1 + 2))
    (h2 : 0 ≤ s.particle_data s.pingpong (3 * p2 + 2)) (force : ℝ × ℝ) :
    S ≤ dist_squared S s p1 p2 ∧
    dist_squared S s p1 p2 ≠ 0 ∧
    Real.sqrt (dist_squared S s p1 p2) ≠ 0 ∧
    |(add_force Real.sqrt S s p1 p2 force).1 - force.1|
      ≤ s.particle_data s.pingpong (3 * p1 + 2) * s.particle_data s.pingpong (3 * p2 + 2) / S ∧
    |(add_force Real.sqrt S s p1 p2 force).2 - force.2|
      ≤ s.particle_data s.pingpong (3 * p1 + 2) * s.particle_data s.pingpong (3 * p2 + 2) / S := by
  obtain ⟨hd, hx, hy⟩ := dist_squared_ge S hS.le s p1 p2
  have hd0 : 0 < dist_squared S s p1 p2 := lt_of_lt_of_le hS hd
  have hM := mul_nonneg h1 h2
  refine ⟨hd, hd0.ne', (Real.sqrt_pos.mpr hd0).ne', ?_, ?_⟩
  · have e : (add_force Real.sqrt S s p1 p2 force).1 - force.1
        = -(x_dist s p1 p2 * (s.particle_data s.pingpong (3 * p1 + 2)
            * s.particle_data s.pingpong (3 * p2 + 2) / dist_squared S s p1 p2)
            / Real.sqrt (dist_squared S s p1 p2)) := by
      simp only [add_force, force_magnitude]; ring
    rw [e, abs_neg]
    exact softened_term_bound _ _ S _ hS hd hx hM
  · have e : (add_force Real.sqrt S s p1 p2 force).2 - force.2
        = -(y_dist s p1 p2 * (s.particle_data s.pingpong (3 * p1 + 2)
            * s.particle_data s.pingpong (3 * p2 + 2) / dist_squared S s p1 p2)
            / Real.sqrt (dist_squared S s p1 p2)) := by
      simp only [add_force, force_magnitude]; ring
    rw [e, abs_neg]
    exact softened_term_bound _ _ S _ hS hd hy hM

/-- Witness of C10 on the golden scenario with `SOFT_FACTOR = 1`. -/
theorem add_force_softened_witness :
    (0 : ℝ) < 1 ∧
    0 ≤ (golden_state ℝ).particle_data (golden_state ℝ).pingpong (3 * 0 + 2) ∧
    0 ≤ (golden_state ℝ).particle_data (golden_state ℝ).pingpong (3 * 1 + 2) ∧
    (1 ≤ dist_squared 1 (golden_state ℝ) 0 1 ∧
     dist_squared 1 (golden_state ℝ) 0 1 ≠ 0 ∧
     Real.sqrt (dist_squared 1 (golden_state ℝ) 0 1) ≠ 0 ∧
     |(add_force Real.sqrt 1 (golden_state ℝ) 0 1 (0, 0)).1 - ((0, 0) : ℝ × ℝ).1|
       ≤ (golden_state ℝ).particle_data (golden_state ℝ).pingpong (3 * 0 + 2)
          * (golden_state ℝ).particle_data (golden_state ℝ).pingpong (3 * 1 + 2) / 1 ∧
     |(add_force Real.sqrt 1 (golden_state ℝ) 0 1 (0, 0)).2 - ((0, 0) : ℝ × ℝ).2|
       ≤ (golden_state ℝ).particle_data (golden_state ℝ).pingpong (3 * 0 + 2)
          * (golden_state ℝ).particle_data (golden_state ℝ).pingpong (3 * 1 + 2) / 1) :=
  ⟨by norm_num, by simp [golden_state], by simp [golden_state],
   add_force_softened 1 (by norm_num) (golden_state ℝ) 0 1 (by simp [golden_state])
     (by simp [golden_state]) (0, 0)⟩

/-- C2, evaluation: after `init_data` and before any step `get_particle_data`
copies out buffer 1, which `init_data` never wrote (mass slot 0), not the
seeded buffer 0 that `pingpong` indexes (mass slot 1); after one step it
copies out the buffer that was current before the step (position 3), not the
one the step wrote and `pingpong` now indexes (position 6). -/
theorem get_particle_data_reads_other_buffer (dz : ℝ → ℝ) :
    ∃ st : SimState ℝ, seeded_run ℝ = Except.ok st ∧ st.pingpong = 0 ∧
      (get_particle_data st (fun _ => 7) (fun _ => 7)).1 2 = 0 ∧
      st.particle_data st.pingpong 2 = 1 ∧
      (get_particle_data (call_interact_kernel Real.sqrt dz 1 (fun _ => (0, 0)) 1 st)
        (fun _ => 7) (fun _ => 7)).1 0 = 3 ∧
      (call_interact_kernel Real.sqrt dz 1 (fun _ => (0, 0)) 1 st).particle_data
        (call_interact_kernel Real.sqrt dz 1 (fun _ => (0, 0)) 1 st).pingpong 0 = 6 := by
  refine ⟨_, rfl, rfl, ?_, ?_, ?_, ?_⟩
  · simp [get_particle_data, init_body, store, assign_array, program_start, List.range_succ]
  · simp [init_body, store, assign_array, program_start, List.range_succ]
  · simp [get_particle_data, call_interact_kernel_pingpong, call_interact_kernel_num_particles,
      call_interact_kernel_data, init_body, store, assign_array, program_start, List.range_succ]
  · rw [call_interact_kernel_pingpong, call_interact_kernel_data]
    simp [new_vel_x, fdiv, force_loop, add_force, x_dist, y_dist, init_body, store, assign_array, program_start,
      List.range_succ]
    norm_num

/-- C1, evaluation: one particle with velocity `(3,3)`, position `(3,3)` and
mass 1, `SOFT_FACTOR = 1`, `dt = 1`, and the local array `force`, which the
code never initialises, holding `(1, 0)` on entry.  The step stores velocity 4
and position 7 in the first component, where the sum of the `add_force`
contributions from a zero accumulator is 0 and the claimed values are 3 and
6. -/
theorem call_interact_kernel_uninitialised_force (dz : ℝ → ℝ) :
    ∃ st : SimState ℝ, seeded_run ℝ = Except.ok st ∧
      (call_interact_kernel Real.sqrt dz 1 (fun _ => (1, 0)) 1 st).particle_vels
        (call_interact_kernel Real.sqrt dz 1 (fun _ => (1, 0)) 1 st).pingpong 0 = 4 ∧
      (call_interact_kernel Real.sqrt dz 1 (fun _ => (1, 0)) 1 st).particle_data
        (call_interact_kernel Real.sqrt dz 1 (fun _ => (1, 0)) 1 st).pingpong 0 = 7 ∧
      force_loop Real.sqrt 1 st 0 (0, 0) = (0, 0) ∧
      st.particle_vels st.pingpong 0
        + (force_loop Real.sqrt 1 st 0 (0, 0)).1 / st.particle_data st.pingpong 2 * 1 = 3 ∧
      st.particle_data st.pingpong 0
        + (st.particle_vels st.pingpong 0
            + (force_loop Real.sqrt 1 st 0 (0, 0)).1 / st.particle_data st.pingpong 2 * 1) * 1
        = 6 := by
  refine ⟨_, rfl, ?_, ?_, ?_, ?_, ?_⟩
  · rw [call_interact_kernel_pingpong, call_interact_kernel_vels]
    simp [new_vel_x, fdiv, force_loop, add_force, x_dist, y_dist, init_body, store, assign_array, program_start,
      List.range_succ]
    norm_num
  · rw [call_interact_kernel_pingpong, call_interact_kernel_data]
    simp [new_vel_x, fdiv, force_loop, add_force, x_dist, y_dist, init_body, store, assign_array, program_start,
      List.range_succ]
    norm_num
  · simp [force_loop, add_force, x_dist, y_dist, init_body, store, assign_array, program_start,
      List.range_succ]
  · simp [force_loop, add_force, x_dist, y_dist, init_body, store, assign_array, program_start,
      List.range_succ]
  · simp [force_loop, add_force, x_dist, y_dist, init_body, store, assign_array, program_start,
      List.range_succ]
    norm_num

/-- C3, evaluation: after `init_data` the mass of particle 0 in the current
buffer is 1; after one `call_interact_kernel` the mass of particle 0 in the
buffer that has become current is 0, the value buffer 1 held since its
allocation, because the step stores no mass. -/
theorem call_interact_kernel_mass_not_carried (dz : ℝ → ℝ) :
    ∃ st : SimState ℝ, seeded_run ℝ = Except.ok st ∧
      st.particle_data st.pingpong (3 * 0 + 2) = 1 ∧
      (call_interact_kernel Real.sqrt dz 1 (fun _ => (0, 0)) 1 st).particle_data
        (call_interact_kernel Real.sqrt dz 1 (fun _ => (0, 0)) 1 st).pingpong (3 * 0 + 2) = 0 := by
  refine ⟨_, rfl, ?_, ?_⟩
  · simp [init_body, store, assign_array, program_start, List.range_succ]
  · rw [call_interact_kernel_pingpong, call_interact_kernel_data]
    simp [init_body, store, assign_array, program_start, List.range_succ]

/-- C4, evaluation: the same state and the same `dt`, run once with the
uninitialised local array `force` holding `(0, 0)` and once with it holding
`(1, 0)`: the velocity of particle 0 in the buffer that becomes current is 3
in the first run and 4 in the second. -/
theorem call_interact_kernel_depends_on_stack (dz : ℝ → ℝ) :
    ∃ st : SimState ℝ, seeded_run ℝ = Except.ok st ∧
      (call_interact_kernel Real.sqrt dz 1 (fun _ => (0, 0)) 1 st).particle_vels
        (call_interact_kernel Real.sqrt dz 1 (fun _ => (0, 0)) 1 st).pingpong 0 = 3 ∧
      (call_interact_kernel Real.sqrt dz 1 (fun _ => (1, 0)) 1 st).particle_vels
        (call_interact_kernel Real.sqrt dz 1 (fun _ => (1, 0)) 1 st).pingpong 0 = 4 := by
  refine ⟨_, rfl, ?_, ?_⟩
  · rw [call_interact_kernel_pingpong, call_interact_kernel_vels]
    simp [new_vel_x, fdiv, force_loop, add_force, x_dist, y_dist, init_body, store, assign_array, program_start,
      List.range_succ]
  · rw [call_interact_kernel_pingpong, call_interact_kernel_vels]
    simp [new_vel_x, fdiv, force_loop, add_force, x_dist, y_dist, init_body, store, assign_array, program_start,
      List.range_succ]
    norm_num

/-- C9, evaluation: the golden scenario with `S = 9`.  `dist_squared` is
`16 + 9` and `force_magnitude` is `1 / (16 + 9)` for the pair, and the golden
velocity `4 / ((16 + S) * sqrt (16 + S))` is `4 / 125`; with the
uninitialised local array `force` holding `(1, 0)` on entry, `call_interact_kernel(1)`
stores `129 / 125` as velocity and as position of particle 0 in the first
component. -/
theorem golden_scenario_uninitialised_force (dz : ℝ → ℝ) :
    dist_squared 9 (golden_state ℝ) 0 1 = 16 + 9 ∧
    force_magnitude 9 (golden_state ℝ) 0 1 = 1 / (16 + 9) ∧
    (4 : ℝ) / ((16 + 9) * Real.sqrt (16 + 9)) = 4 / 125 ∧
    (call_interact_kernel Real.sqrt dz 9 (fun _ => (1, 0)) 1 (golden_state ℝ)).particle_vels
      (call_interact_kernel Real.sqrt dz 9 (fun _ => (1, 0)) 1 (golden_state ℝ)).pingpong 0
      = 129 / 125 ∧
    (call_interact_kernel Real.sqrt dz 9 (fun _ => (1, 0)) 1 (golden_state ℝ)).particle_data
      (call_interact_kernel Real.sqrt dz 9 (fun _ => (1, 0)) 1 (golden_state ℝ)).pingpong 0
      = 129 / 125 := by
  have h25 : (16 : ℝ) + 9 = 25 := by norm_num
  have hd : dist_squared 9 (golden_state ℝ) 0 1 = 16 + 9 :=
    (golden_step_zero_force dz 9).1
  have hm : force_magnitude 9 (golden_state ℝ) 0 1 = 1 / (16 + 9) :=
    (golden_step_zero_force dz 9).2.1
  have hx : x_dist (golden_state ℝ) 0 1 = -4 := by simp [x_dist, golden_state]
  have hr : (golden_state ℝ).num_particles.toNat = 2 := rfl
  have f0 : force_loop Real.sqrt 9 (golden_state ℝ) 0 (1, 0) = (129 / 125, 0) := by
    simp only [force_loop, hr, List.range_succ, List.range_zero, List.nil_append,
      List.cons_append, List.foldl_cons, List.foldl_nil, add_force_same]
    simp only [add_force, hd, hm, hx, h25, sqrt_twenty_five]
    ext
    · norm_num
    · simp [y_dist, golden_state]
  have v0 : new_vel_x Real.sqrt dz 9 1 (1, 0) (golden_state ℝ) 0 = 129 / 125 := by
    rw [new_vel_x, f0]; simp [golden_state, fdiv]
  have hp : (golden_state ℝ).pingpong = 0 := rfl
  have hn : (golden_state ℝ).num_particles = 2 := rfl
  have d0 : (golden_state ℝ).particle_data 0 0 = 0 := by simp [golden_state]
  refine ⟨hd, hm, ?_, ?_, ?_⟩
  · rw [h25, sqrt_twenty_five]; norm_num
  · rw [call_interact_kernel_pingpong, call_interact_kernel_vels]; simp [hp, hn, v0]
  · rw [call_interact_kernel_pingpong, call_interact_kernel_data]; simp [hp, hn, v0, d0]

end Claims

section Flag

variable {α : Type} [Field α]

theorem init_body_pingpong (rem : Int → α → α) (rand : Nat → Int) (bw bh lo hi : α)
    (s : SimState α) (i : Nat) : (init_body rem rand bw bh lo hi s i).pingpong = s.pingpong :=
  rfl

theorem init_body_num_particles (rem : Int → α → α) (rand : Nat → Int) (bw bh lo hi : α)
    (s : SimState α) (i : Nat) :
    (init_body rem rand bw bh lo hi s i).num_particles = s.num_particles := rfl

theorem init_loop_pingpong (rem : Int → α → α) (rand : Nat → Int) (bw bh lo hi : α)
    (l : List Nat) (s : SimState α) :
    (l.foldl (init_body rem rand bw bh lo hi) s).pingpong = s.pingpong := by
  induction l generalizing s with
  | nil => rfl
  | cons a l ih => rw [List.foldl_cons, ih, init_body_pingpong]

theorem init_loop_num_particles (rem : Int → α → α) (rand : Nat → Int) (bw bh lo hi : α)
    (l : List Nat) (s : SimState α) :
    (l.foldl (init_body rem rand bw bh lo hi) s).num_particles = s.num_particles := by
  induction l generalizing s with
  | nil => rfl
  | cons a l ih => rw [List.foldl_cons, ih, init_body_num_particles]

/-- Whether it returns or throws, `init_data` leaves `pingpong` as it was and
`num_particles` set to its first argument. -/
theorem init_data_globals (rem : Int → α → α) (rand : Nat → Int) (heap_ok : Nat → Bool)
    (fv fd : Int → Nat → α) (s : SimState α) (n : Int) (bw bh lo hi : α) (a b c : Int)
    (t : SimState α)
    (h : init_data rem rand heap_ok fv fd s n bw bh lo hi a b c = Except.ok t ∨
      init_data rem rand heap_ok fv fd s n bw bh lo hi a b c = Except.error t) :
    t.pingpong = s.pingpong ∧ t.num_particles = n := by
  unfold init_data at h
  simp only at h
  split_ifs at h
  all_goals
    rcases h with h | h <;> cases h <;> first
      | exact ⟨rfl, rfl⟩
      | exact ⟨init_loop_pingpong _ _ _ _ _ _ _ _, init_loop_num_particles _ _ _ _ _ _ _ _⟩

theorem reachable_pingpong [DecidableEq α] (s : SimState α) (h : Reachable s) :
    s.pingpong = 0 ∨ s.pingpong = 1 := by
  induction h with
  | start => exact Or.inl rfl
  | init rem rand ok fv fd s n bw bh lo hi a b c t _ ht ih =>
    rw [(init_data_globals rem rand ok fv fd s n bw bh lo hi a b c t (Or.inl ht)).1]; exact ih
  | init_throws rem rand ok fv fd s n bw bh lo hi a b c t _ ht ih =>
    rw [(init_data_globals rem rand ok fv fd s n bw bh lo hi a b c t (Or.inr ht)).1]; exact ih
  | step sqrt dz S u dt s _ ih =>
    rw [call_interact_kernel_pingpong]
    rcases ih with h0 | h1
    · right; omega
    · left; omega

end Flag

section Invariants

variable {α : Type} [Field α]

/-- C16: `pingpong` is 0 at program start; in every reachable state it is 0
or 1; `call_interact_kernel` maps the flag `f` to `1 - f`; the scratch index
`1 - f` is then 0 or 1 as well and differs from `f`; and two consecutive
calls restore the flag. -/
theorem pingpong_flag_invariant [DecidableEq α] (s : SimState α) (h : Reachable s) :
    (program_start : SimState α).pingpong = 0 ∧
    (s.pingpong = 0 ∨ s.pingpong = 1) ∧
    (1 - s.pingpong = 0 ∨ 1 - s.pingpong = 1) ∧
    s.pingpong ≠ 1 - s.pingpong ∧
    (∀ (sqrt : α → α) (dz : α → α) (S : α) (u : Nat → α × α) (dt : α),
      (call_interact_kernel sqrt dz S u dt s).pingpong = 1 - s.pingpong) ∧
    (∀ (sqrt sqrt2 : α → α) (dz dz2 : α → α) (S S2 : α) (u u2 : Nat → α × α) (dt dt2 : α),
      (call_interact_kernel sqrt2 dz2 S2 u2 dt2 (call_interact_kernel sqrt dz S u dt s)).pingpong
        = s.pingpong) := by
  have hp := reachable_pingpong s h
  refine ⟨rfl, hp, ?_, pingpong_ne_other s.pingpong, ?_, ?_⟩
  · rcases hp with h0 | h1
    · right; omega
    · left; omega
  · intro sqrt dz S u dt
    exact call_interact_kernel_pingpong sqrt dz S u dt s
  · intro sqrt sqrt2 dz dz2 S S2 u u2 dt dt2
    rw [call_interact_kernel_pingpong, call_interact_kernel_pingpong]
    omega

/-- Witness of C16 on the state one `call_interact_kernel` after program
start. -/
theorem pingpong_flag_invariant_witness :
    Reachable (call_interact_kernel Real.sqrt id 1 (fun _ => (0, 0)) 1
      (program_start : SimState ℝ)) ∧
    ((program_start : SimState ℝ).pingpong = 0 ∧
    ((call_interact_kernel Real.sqrt id 1 (fun _ => (0, 0)) 1
        (program_start : SimState ℝ)).pingpong = 0 ∨
      (call_interact_kernel Real.sqrt id 1 (fun _ => (0, 0)) 1
        (program_start : SimState ℝ)).pingpong = 1) ∧
    (1 - (call_interact_kernel Real.sqrt id 1 (fun _ => (0, 0)) 1
        (program_start : SimState ℝ)).pingpong = 0 ∨
      1 - (call_interact_kernel Real.sqrt id 1 (fun _ => (0, 0)) 1
        (program_start : SimState ℝ)).pingpong = 1) ∧
    (call_interact_kernel Real.sqrt id 1 (fun _ => (0, 0)) 1
        (program_start : SimState ℝ)).pingpong
      ≠ 1 - (call_interact_kernel Real.sqrt id 1 (fun _ => (0, 0)) 1
        (program_start : SimState ℝ)).pingpong ∧
    (∀ (sqrt : ℝ → ℝ) (dz : ℝ → ℝ) (S : ℝ) (u : Nat → ℝ × ℝ) (dt : ℝ),
      (call_interact_kernel sqrt dz S u dt (call_interact_kernel Real.sqrt id 1 (fun _ => (0, 0)) 1
        (program_start : SimState ℝ))).pingpong
        = 1 - (call_interact_kernel Real.sqrt id 1 (fun _ => (0, 0)) 1
          (program_start : SimState ℝ)).pingpong) ∧
    (∀ (sqrt sqrt2 : ℝ → ℝ) (dz dz2 : ℝ → ℝ) (S S2 : ℝ) (u u2 : Nat → ℝ × ℝ) (dt dt2 : ℝ),
      (call_interact_kernel sqrt2 dz2 S2 u2 dt2 (call_interact_kernel sqrt dz S u dt
        (call_interact_kernel Real.sqrt id 1 (fun _ => (0, 0)) 1
          (program_start : SimState ℝ)))).pingpong
        = (call_interact_kernel Real.sqrt id 1 (fun _ => (0, 0)) 1
          (program_start : SimState ℝ)).pingpong)) :=
  ⟨Reachable.step _ _ _ _ _ _ Reachable.start,
   pingpong_flag_invariant _ (Reachable.step _ _ _ _ _ _ Reachable.start)⟩

/-- C19: `call_interact_kernel` stores into no mass slot: for every buffer
index `b`, so for `b = 0` and `b = 1`, and every `i`, the slot
`particle_data[b][3*i+2]` holds after the call what it held before; the masses
of the buffer that becomes current are those it held before the step. -/
theorem call_interact_kernel_mass_slots [DecidableEq α] (sqrt : α → α) (dz : α → α)
    (S : α) (u : Nat → α × α) (dt : α)
    (s : SimState α) (b : Int) (i : Nat) :
    (call_interact_kernel sqrt dz S u dt s).particle_data b (3 * i + 2)
        = s.particle_data b (3 * i + 2) ∧
    (call_interact_kernel sqrt dz S u dt s).particle_data
        (call_interact_kernel sqrt dz S u dt s).pingpong (3 * i + 2)
      = s.particle_data (1 - s.pingpong) (3 * i + 2) := by
  have e : (3 * i + 2) % 3 = 2 := by omega
  rw [call_interact_kernel_pingpong, call_interact_kernel_data, call_interact_kernel_data]
  simp [e]

/-- C17: for every state, all `p1`, `p2` and every incoming accumulator `a`,
the accumulator after `add_force(p1, p2, a)` is `a` plus the accumulator that
`add_force(p1, p2, (0,0))` leaves.  The accumulator is the only thing
`add_force` assigns, which is why the embedding returns nothing else. -/
theorem add_force_additive (sqrt : α → α) (S : α) (s : SimState α) (p1 p2 : Nat)
    (a : α × α) :
    add_force sqrt S s p1 p2 a = a + add_force sqrt S s p1 p2 (0, 0) := by
  ext <;> simp [add_force] <;> ring

/-- C12, counterexample: at program start `num_particles` is 0, and the state
after `call_interact_kernel(1)` is not the state before it, because `pingpong`
has become 1. -/
theorem call_interact_kernel_empty_flips :
    (program_start : SimState ℝ).num_particles = 0 ∧
    (call_interact_kernel Real.sqrt id 1 (fun _ => (0, 0)) 1 (program_start : SimState ℝ)).pingpong
      = 1 ∧
    call_interact_kernel Real.sqrt id 1 (fun _ => (0, 0)) 1 (program_start : SimState ℝ)
      ≠ program_start := by
  refine ⟨rfl, ?_, ?_⟩
  · rw [call_interact_kernel_pingpong]; rfl
  · intro h
    have hp := congrArg SimState.pingpong h
    rw [call_interact_kernel_pingpong] at hp
    have h0 : (program_start : SimState ℝ).pingpong = 0 := rfl
    rw [h0] at hp
    omega

/-- C12, amended: when `num_particles == 0`, `call_interact_kernel(dt)` changes
nothing but the flag: `num_particles` and both arrays of both buffers are as
before and `pingpong` becomes `1 - pingpong`; and `get_particle_data`, before
or after the call, leaves both destinations as they were. -/
theorem call_interact_kernel_empty [DecidableEq α] (sqrt : α → α) (dz : α → α)
    (S : α) (u : Nat → α × α) (dt : α)
    (s : SimState α) (h : s.num_particles = 0) (out_data out_vels : Nat → α) :
    (call_interact_kernel sqrt dz S u dt s).pingpong = 1 - s.pingpong ∧
    (call_interact_kernel sqrt dz S u dt s).num_particles = s.num_particles ∧
    (call_interact_kernel sqrt dz S u dt s).particle_vels = s.particle_vels ∧
    (call_interact_kernel sqrt dz S u dt s).particle_data = s.particle_data ∧
    get_particle_data s out_data out_vels = (out_data, out_vels) ∧
    get_particle_data (call_interact_kernel sqrt dz S u dt s) out_data out_vels
      = (out_data, out_vels) := by
  have hn := call_interact_kernel_num_particles sqrt dz S u dt s
  refine ⟨call_interact_kernel_pingpong sqrt dz S u dt s, hn, ?_, ?_, ?_, ?_⟩
  · funext b k
    have hk : ¬ (b = 1 - s.pingpong ∧ ((k / 2 : Nat) : Int) < s.num_particles) := by
      rw [h]; omega
    rw [call_interact_kernel_vels, if_neg hk]
  · funext b k
    have hk : ¬ (b = 1 - s.pingpong ∧ ((k / 3 : Nat) : Int) < s.num_particles ∧ k % 3 ≠ 2) := by
      rw [h]; omega
    rw [call_interact_kernel_data, if_neg hk]
  · have h3 : ∀ k : Nat, ¬ ((k : Int) < 3 * s.num_particles) := by intro k; rw [h]; omega
    have h2 : ∀ k : Nat, ¬ ((k : Int) < 2 * s.num_particles) := by intro k; rw [h]; omega
    simp only [get_particle_data, h3, h2, if_false]
  · have h3 : ∀ k : Nat, ¬ ((k : Int) < 3 * s.num_particles) := by intro k; rw [h]; omega
    have h2 : ∀ k : Nat, ¬ ((k : Int) < 2 * s.num_particles) := by intro k; rw [h]; omega
    simp only [get_particle_data, hn, h3, h2, if_false]

/-- Witness of the amended C12 at program start. -/
theorem call_interact_kernel_empty_witness :
    (program_start : SimState ℝ).num_particles = 0 ∧
    ((call_interact_kernel Real.sqrt id 1 (fun _ => (0, 0)) 1
        (program_start : SimState ℝ)).pingpong = 1 - (program_start : SimState ℝ).pingpong ∧
    (call_interact_kernel Real.sqrt id 1 (fun _ => (0, 0)) 1
        (program_start : SimState ℝ)).num_particles
      = (program_start : SimState ℝ).num_particles ∧
    (call_interact_kernel Real.sqrt id 1 (fun _ => (0, 0)) 1
        (program_start : SimState ℝ)).particle_vels
      = (program_start : SimState ℝ).particle_vels ∧
    (call_interact_kernel Real.sqrt id 1 (fun _ => (0, 0)) 1
        (program_start : SimState ℝ)).particle_data
      = (program_start : SimState ℝ).particle_data ∧
    get_particle_data (program_start : SimState ℝ) (fun _ => 7) (fun _ => 7)
      = (fun _ => 7, fun _ => 7) ∧
    get_particle_data (call_interact_kernel Real.sqrt id 1 (fun _ => (0, 0)) 1
        (program_start : SimState ℝ)) (fun _ => 7) (fun _ => 7)
      = (fun _ => 7, fun _ => 7)) :=
  ⟨rfl, call_interact_kernel_empty Real.sqrt id 1 (fun _ => (0, 0)) 1 program_start rfl
    (fun _ => 7) (fun _ => 7)⟩

/-- C14, counterexample: `init_data(1, -1, -1, 5, 0, 1, 1, 0)`, with
`box_width <= 0`, `box_height <= 0` and `max_vel < min_vel`, with `rand()`
returning 3 so that `3 % -5` is 3 and `3 % -1` is 0, and with the heap
granting the four arrays, reports no error: it returns with one particle of
mass 1, velocity `(8, 8)` and position `(0, 0)`. -/
theorem init_data_accepts_invalid_configuration :
    (-1 : ℝ) ≤ 0 ∧ (0 : ℝ) < 5 ∧
    ∃ st : SimState ℝ,
      init_data (fun _ w => if w = -5 then 3 else 0) (fun _ => 3) (fun _ => true)
        (fun _ _ => 0) (fun _ _ => 0) program_start 1 (-1) (-1) 5 0 1 1 0 = Except.ok st ∧
      st.num_particles = 1 ∧ st.particle_data 0 2 = 1 ∧
      st.particle_vels 0 0 = 8 ∧ st.particle_vels 0 1 = 8 ∧
      st.particle_data 0 0 = 0 ∧ st.particle_data 0 1 = 0 := by
  refine ⟨by norm_num, by norm_num, _, rfl, rfl, ?_, ?_, ?_, ?_, ?_⟩
  · simp [init_body, store, assign_array, program_start, List.range_succ]
  · simp [init_body, store, assign_array, program_start, List.range_succ]; norm_num
  · simp [init_body, store, assign_array, program_start, List.range_succ]; norm_num
  · simp [init_body, store, assign_array, program_start, List.range_succ]
  · simp [init_body, store, assign_array, program_start, List.range_succ]

/-- C14, amended: whenever `num_particles < 0`, the `int` product
`num_particles * 2` being representable, `init_data` reports an error instead
of producing an initialised state: the first `new` throws on the negative
length, with `num_particles` already assigned and nothing else changed.
Whether `init_data` reports an error does not depend on `box_width`,
`box_height`, `min_vel` or `max_vel`, for any `num_particles`. -/
theorem init_data_negative_count (rem : Int → α → α) (rand : Nat → Int)
    (heap_ok : Nat → Bool) (fv fd : Int → Nat → α) (s : SimState α) (n : Int)
    (bw bh lo hi : α) (a b c : Int) (hrep : -1073741824 ≤ n) (hneg : n < 0) :
    init_data rem rand heap_ok fv fd s n bw bh lo hi a b c
      = Except.error { s with num_particles := n } ∧
    ∀ (n2 : Int) (bw2 bh2 lo2 hi2 : α),
      (init_data rem rand heap_ok fv fd s n2 bw2 bh2 lo2 hi2 a b c).isOk
        = (init_data rem rand heap_ok fv fd s n2 bw bh lo hi a b c).isOk := by
  constructor
  · have hw : int_wrap (n * 2) = n * 2 := by unfold int_wrap; omega
    have hr : new_returns heap_ok 0 (int_wrap (n * 2)) = false := by
      rw [hw]
      have : ¬ (0 ≤ n * 2) := by omega
      simp [new_returns, this]
    simp only [init_data, hr, if_true]
  · intro n2 bw2 bh2 lo2 hi2
    simp only [init_data]
    split_ifs <;> rfl

/-- Witness of the amended C14: `init_data(-1, 10, 10, 0, 10, 1, 1, 0)` at
program start. -/
theorem init_data_negative_count_witness :
    (-1073741824 : Int) ≤ -1 ∧ (-1 : Int) < 0 ∧
    (init_data (fun _ _ => 3) (fun _ => 3) (fun _ => true) (fun _ _ => 0) (fun _ _ => 0)
        (program_start : SimState ℝ) (-1) 10 10 0 10 1 1 0
      = Except.error { (program_start : SimState ℝ) with num_particles := -1 } ∧
    ∀ (n2 : Int) (bw2 bh2 lo2 hi2 : ℝ),
      (init_data (fun _ _ => 3) (fun _ => 3) (fun _ => true) (fun _ _ => 0) (fun _ _ => 0)
          (program_start : SimState ℝ) n2 bw2 bh2 lo2 hi2 1 1 0).isOk
        = (init_data (fun _ _ => 3) (fun _ => 3) (fun _ => true) (fun _ _ => 0)
          (fun _ _ => 0) (program_start : SimState ℝ) n2 10 10 0 10 1 1 0).isOk) :=
  ⟨by decide, by decide,
   init_data_negative_count (fun _ _ => 3) (fun _ => 3) (fun _ => true) (fun _ _ => 0)
     (fun _ _ => 0) program_start (-1) 10 10 0 10 1 1 0 (by decide) (by decide)⟩

/-- At `num_particles = -2^30 - 1` both `int` products wrap to non-negative
lengths: when the heap grants the four arrays `init_data` returns, with a
negative `num_particles` and no particle seeded. -/
theorem init_data_wrapped_negative_count (rem : Int → α → α) (rand : Nat → Int)
    (fv fd : Int → Nat → α) (s : SimState α) (bw bh lo hi : α) (a b c : Int) :
    int_wrap (-1073741825 * 2) = 2147483646 ∧ int_wrap (-1073741825 * 3) = 1073741821 ∧
    init_data rem rand (fun _ => true) fv fd s (-1073741825) bw bh lo hi a b c
      = Except.ok
          { pingpong := s.pingpong, num_particles := -1073741825,
            particle_vels := assign_array (assign_array s.particle_vels 0 (fv 0)) 1 (fv 1),
            particle_data := assign_array (assign_array s.particle_data 0 (fd 0)) 1 (fd 1) } := by
  have h2 : int_wrap (-1073741825 * 2) = 2147483646 := by decide
  have h3 : int_wrap (-1073741825 * 3) = 1073741821 := by decide
  have h0 : (-1073741825 : Int).toNat = 0 := by decide
  refine ⟨h2, h3, ?_⟩
  simp only [init_data, h2, h3, h0, new_returns]
  simp

/-- At `num_particles = 2^30` the `int` product `num_particles * 2` wraps to a
negative length and the first `new` throws, whatever the heap grants. -/
theorem init_data_overflowing_count (rem : Int → α → α) (rand : Nat → Int)
    (heap_ok : Nat → Bool) (fv fd : Int → Nat → α) (s : SimState α)
    (bw bh lo hi : α) (a b c : Int) :
    init_data rem rand heap_ok fv fd s 1073741824 bw bh lo hi a b c
      = Except.error { s with num_particles := 1073741824 } := by
  have hw : int_wrap (1073741824 * 2) = -2147483648 := by decide
  have hr : new_returns heap_ok 0 (int_wrap (1073741824 * 2)) = false := by
    rw [hw]; simp [new_returns]
  simp only [init_data, hr, if_true]

/-- C11, evaluation: the state one `call_interact_kernel(1)` after
`init_data` is reachable, has one particle, and the mass of that particle in
its current buffer is 0, not positive: the step stored no mass into buffer 1
and `init_data` set the mass in buffer 0 only.  It is the divisor of the next
step. -/
theorem reachable_mass_not_positive (dz : ℝ → ℝ) :
    ∃ st : SimState ℝ, seeded_run ℝ = Except.ok st ∧
      Reachable (call_interact_kernel Real.sqrt dz 1 (fun _ => (0, 0)) 1 st) ∧
      ((0 : Nat) : Int) < (call_interact_kernel Real.sqrt dz 1 (fun _ => (0, 0)) 1 st).num_particles ∧
      (call_interact_kernel Real.sqrt dz 1 (fun _ => (0, 0)) 1 st).particle_data
        (call_interact_kernel Real.sqrt dz 1 (fun _ => (0, 0)) 1 st).pingpong (3 * 0 + 2) = 0 ∧
      ¬ (0 < (call_interact_kernel Real.sqrt dz 1 (fun _ => (0, 0)) 1 st).particle_data
        (call_interact_kernel Real.sqrt dz 1 (fun _ => (0, 0)) 1 st).pingpong (3 * 0 + 2)) := by
  have hm : ∀ st : SimState ℝ, seeded_run ℝ = Except.ok st →
      (call_interact_kernel Real.sqrt dz 1 (fun _ => (0, 0)) 1 st).particle_data
        (call_interact_kernel Real.sqrt dz 1 (fun _ => (0, 0)) 1 st).pingpong (3 * 0 + 2) = 0 := by
    intro st hst
    have e := Except.ok.inj hst
    subst e
    rw [call_interact_kernel_pingpong, call_interact_kernel_data]
    simp [init_body, store, assign_array, program_start, List.range_succ]
  refine ⟨_, rfl, ?_, ?_, hm _ rfl, ?_⟩
  · exact Reachable.step _ _ _ _ _ _
      (Reachable.init (fun _ _ => 3) (fun _ => 3) (fun _ => true) (fun _ _ => 0)
        (fun _ _ => 0) program_start 1 10 10 0 10 1 1 0 _ Reachable.start rfl)
  · rw [call_interact_kernel_num_particles]; decide
  · rw [hm _ rfl]; exact lt_irrefl 0

/-- C13: with `SOFT_FACTOR > 0` and positive masses of `p1` and `p2`, each
component of what `add_force(p1, p2)` adds to a zero accumulator has the sign
of the same component of `pos[p2] - pos[p1]`: positive, zero or negative with
it.  The force on `p1` points toward `p2`. -/
theorem add_force_attractive (S : ℝ) (hS : 0 < S) (s : SimState ℝ) (p1 p2 : Nat)
    (h1 : 0 < s.particle_data s.pingpong (3 * p1 + 2))
    (h2 : 0 < s.particle_data s.pingpong (3 * p2 + 2)) :
    SignType.sign (add_force Real.sqrt S s p1 p2 (0, 0)).1
      = SignType.sign (s.particle_data s.pingpong (3 * p2)
          - s.particle_data s.pingpong (3 * p1)) ∧
    SignType.sign (add_force Real.sqrt S s p1 p2 (0, 0)).2
      = SignType.sign (s.particle_data s.pingpong (3 * p2 + 1)
          - s.particle_data s.pingpong (3 * p1 + 1)) := by
  obtain ⟨hd, -, -⟩ := dist_squared_ge S hS.le s p1 p2
  have hd0 : 0 < dist_squared S s p1 p2 := lt_of_lt_of_le hS hd
  have hs : 0 < Real.sqrt (dist_squared S s p1 p2) := Real.sqrt_pos.mpr hd0
  have hm : 0 < force_magnitude S s p1 p2 := div_pos (mul_pos h1 h2) hd0
  have hc : 0 < force_magnitude S s p1 p2 / Real.sqrt (dist_squared S s p1 p2) :=
    div_pos hm hs
  constructor
  · have e : (add_force Real.sqrt S s p1 p2 (0, 0)).1
        = (s.particle_data s.pingpong (3 * p2) - s.particle_data s.pingpong (3 * p1))
          * (force_magnitude S s p1 p2 / Real.sqrt (dist_squared S s p1 p2)) := by
      simp only [add_force, x_dist]; ring
    rw [e, sign_mul, sign_pos hc, mul_one]
  · have e : (add_force Real.sqrt S s p1 p2 (0, 0)).2
        = (s.particle_data s.pingpong (3 * p2 + 1) - s.particle_data s.pingpong (3 * p1 + 1))
          * (force_magnitude S s p1 p2 / Real.sqrt (dist_squared S s p1 p2)) := by
      simp only [add_force, y_dist]; ring
    rw [e, sign_mul, sign_pos hc, mul_one]

/-- Witness of C13 on the golden scenario with `SOFT_FACTOR = 1`. -/
theorem add_force_attractive_witness :
    (0 : ℝ) < 1 ∧
    0 < (golden_state ℝ).particle_data (golden_state ℝ).pingpong (3 * 0 + 2) ∧
    0 < (golden_state ℝ).particle_data (golden_state ℝ).pingpong (3 * 1 + 2) ∧
    (SignType.sign (add_force Real.sqrt 1 (golden_state ℝ) 0 1 (0, 0)).1
      = SignType.sign ((golden_state ℝ).particle_data (golden_state ℝ).pingpong (3 * 1)
          - (golden_state ℝ).particle_data (golden_state ℝ).pingpong (3 * 0)) ∧
    SignType.sign (add_force Real.sqrt 1 (golden_state ℝ) 0 1 (0, 0)).2
      = SignType.sign ((golden_state ℝ).particle_data (golden_state ℝ).pingpong (3 * 1 + 1)
          - (golden_state ℝ).particle_data (golden_state ℝ).pingpong (3 * 0 + 1))) :=
  ⟨by norm_num, by simp [golden_state], by simp [golden_state],
   add_force_attractive 1 (by norm_num) (golden_state ℝ) 0 1 (by simp [golden_state])
     (by simp [golden_state])⟩

end Invariants

section Sums

variable {α : Type} [Field α]

theorem SimState.eq_of_fields {β : Type} (a b : SimState β) (h1 : a.pingpong = b.pingpong)
    (h2 : a.num_particles = b.num_particles) (h3 : a.particle_vels = b.particle_vels)
    (h4 : a.particle_data = b.particle_data) : a = b := by
  cases a; cases b; simp_all

/-- Two index lists with the same members give the same state after the outer
loop, when in both the array `force` starts the iteration that handles
particle `i` with the same content `u i`. -/
theorem interact_fold_of_mem_iff [DecidableEq α] (sqrt : α → α) (dz : α → α)
    (S : α) (u : Nat → α × α) (dt : α)
    (l l2 : List Nat) (s : SimState α) (h : ∀ i, i ∈ l ↔ i ∈ l2) :
    interact_fold sqrt dz S u dt l s = interact_fold sqrt dz S u dt l2 s := by
  apply SimState.eq_of_fields
  · rw [interact_fold_pingpong, interact_fold_pingpong]
  · rw [interact_fold_num_particles, interact_fold_num_particles]
  · funext b k
    simp only [interact_fold_vels, h]
  · funext b k
    simp only [interact_fold_data, h]

theorem add_force_zero_add (sqrt : α → α) (S : α) (s : SimState α) (p1 p2 : Nat)
    (f : α × α) : add_force sqrt S s p1 p2 f = f + add_force sqrt S s p1 p2 (0, 0) := by
  ext <;> simp [add_force] <;> ring

/-- The inner loop adds to the array `force` the sum of the contributions of
all `j < n`. -/
theorem force_fold_eq_sum (sqrt : α → α) (S : α) (s : SimState α) (i n : Nat) (f : α × α) :
    (List.range n).foldl (fun f j => add_force sqrt S s i j f) f
      = f + Finset.sum (Finset.range n) (fun j => add_force sqrt S s i j (0, 0)) := by
  induction n with
  | zero => simp
  | succ n ih =>
    rw [List.range_succ, List.foldl_append, List.foldl_cons, List.foldl_nil, ih,
      Finset.sum_range_succ, add_force_zero_add, add_assoc]

theorem force_loop_eq_sum (sqrt : α → α) (S : α) (s : SimState α) (i : Nat) (f : α × α) :
    force_loop sqrt S s i f
      = f + Finset.sum (Finset.range s.num_particles.toNat)
          (fun j => add_force sqrt S s i j (0, 0)) :=
  force_fold_eq_sum sqrt S s i s.num_particles.toNat f

theorem add_force_swap (sqrt : α → α) (S : α) (s : SimState α) (p1 p2 : Nat) :
    add_force sqrt S s p1 p2 (0, 0) = -add_force sqrt S s p2 p1 (0, 0) := by
  have hd : dist_squared S s p2 p1 = dist_squared S s p1 p2 := by
    simp only [dist_squared, x_dist, y_dist]; ring
  have hm : force_magnitude S s p2 p1 = force_magnitude S s p1 p2 := by
    simp only [force_magnitude, hd]; ring
  have hx : x_dist s p2 p1 = -x_dist s p1 p2 := by simp only [x_dist]; ring
  have hy : y_dist s p2 p1 = -y_dist s p1 p2 := by simp only [y_dist]; ring
  ext
  · simp only [add_force, hd, hm, hx, hy, Prod.fst_neg]; ring
  · simp only [add_force, hd, hm, hx, hy, Prod.snd_neg]; ring

/-- A double sum of an antisymmetric real family over a square vanishes. -/
theorem sum_sum_antisymm (n : Nat) (g : Nat → Nat → ℝ) (h : ∀ i j, g i j = -g j i) :
    Finset.sum (Finset.range n) (fun i => Finset.sum (Finset.range n) (fun j => g i j)) = 0 := by
  have e : Finset.sum (Finset.range n) (fun i => Finset.sum (Finset.range n) (fun j => g i j))
      = -Finset.sum (Finset.range n)
          (fun i => Finset.sum (Finset.range n) (fun j => g i j)) := by
    conv_lhs => rw [Finset.sum_comm]
    rw [← Finset.sum_neg_distrib]
    refine Finset.sum_congr rfl (fun i _ => ?_)
    rw [← Finset.sum_neg_distrib]
    exact Finset.sum_congr rfl (fun j _ => h j i)
  linarith

theorem golden_masses_nonzero (i : Nat) (hi : (i : Int) < (golden_state ℝ).num_particles) :
    (golden_state ℝ).particle_data (golden_state ℝ).pingpong (3 * i + 2) ≠ 0 := by
  have hn : (golden_state ℝ).num_particles = 2 := rfl
  rw [hn] at hi
  have h01 : i = 0 ∨ i = 1 := by omega
  rcases h01 with rfl | rfl <;> simp [golden_state]

end Sums

section Order

variable {α : Type} [Field α]

theorem golden_force_loop_0 (g : ℝ × ℝ) :
    force_loop Real.sqrt 9 (golden_state ℝ) 0 g = (g.1 + 4 / 125, g.2) := by
  have h25 : (16 : ℝ) + 9 = 25 := by norm_num
  have hd : dist_squared 9 (golden_state ℝ) 0 1 = 16 + 9 := by
    simp [dist_squared, x_dist, y_dist, golden_state]; norm_num
  have hm : force_magnitude 9 (golden_state ℝ) 0 1 = 1 / (16 + 9) := by
    rw [force_magnitude, hd]; simp [golden_state]
  have hx : x_dist (golden_state ℝ) 0 1 = -4 := by simp [x_dist, golden_state]
  have hy : y_dist (golden_state ℝ) 0 1 = 0 := by simp [y_dist, golden_state]
  have hr : (golden_state ℝ).num_particles.toNat = 2 := rfl
  simp only [force_loop, hr, List.range_succ, List.range_zero, List.nil_append,
    List.cons_append, List.foldl_cons, List.foldl_nil, add_force_same]
  simp only [add_force, hd, hm, hx, hy, h25, sqrt_twenty_five]
  ext
  · norm_num
  · simp

theorem golden_force_loop_1 (g : ℝ × ℝ) :
    force_loop Real.sqrt 9 (golden_state ℝ) 1 g = (g.1 - 4 / 125, g.2) := by
  have h25 : (16 : ℝ) + 9 = 25 := by norm_num
  have hd : dist_squared 9 (golden_state ℝ) 1 0 = 16 + 9 := by
    simp [dist_squared, x_dist, y_dist, golden_state]; norm_num
  have hm : force_magnitude 9 (golden_state ℝ) 1 0 = 1 / (16 + 9) := by
    rw [force_magnitude, hd]; simp [golden_state]
  have hx : x_dist (golden_state ℝ) 1 0 = 4 := by simp [x_dist, golden_state]
  have hy : y_dist (golden_state ℝ) 1 0 = 0 := by simp [y_dist, golden_state]
  have hr : (golden_state ℝ).num_particles.toNat = 2 := rfl
  simp only [force_loop, hr, List.range_succ, List.range_zero, List.nil_append,
    List.cons_append, List.foldl_cons, List.foldl_nil, add_force_same]
  simp only [add_force, hd, hm, hx, hy, h25, sqrt_twenty_five]
  ext
  · norm_num
  · simp

theorem golden_new_vel_x_0 (dz : ℝ → ℝ) (g : ℝ × ℝ) :
    new_vel_x Real.sqrt dz 9 1 g (golden_state ℝ) 0 = g.1 + 4 / 125 := by
  rw [new_vel_x, golden_force_loop_0]; simp [golden_state, fdiv]

theorem golden_new_vel_x_1 (dz : ℝ → ℝ) (g : ℝ × ℝ) :
    new_vel_x Real.sqrt dz 9 1 g (golden_state ℝ) 1 = g.1 - 4 / 125 := by
  rw [new_vel_x, golden_force_loop_1]; simp [golden_state, fdiv]

/-- C15, evaluation: the golden scenario with `S = 9` and `dt = 1`, the array
`force` being one stack slot that holds `(0, 0)` when the loop is entered and
keeps what each iteration leaves.  Run over the particles in the order 0, 1
the loop stores the velocities `4 / 125` for particle 0 and `0` for particle
1; run in the order 1, 0 it stores `0` for particle 0 and `-4 / 125` for
particle 1.  Each run is `interact_loop` on the contents the slot has in
positions 0 and 1. -/
theorem outer_loop_order_observable (dz : ℝ → ℝ) :
    (interact_loop_carried Real.sqrt dz 9 1 (0, 0) [0, 1] (golden_state ℝ)).particle_vels 1 0
      = 4 / 125 ∧
    (interact_loop_carried Real.sqrt dz 9 1 (0, 0) [0, 1] (golden_state ℝ)).particle_vels 1 2
      = 0 ∧
    (interact_loop_carried Real.sqrt dz 9 1 (0, 0) [1, 0] (golden_state ℝ)).particle_vels 1 0
      = 0 ∧
    (interact_loop_carried Real.sqrt dz 9 1 (0, 0) [1, 0] (golden_state ℝ)).particle_vels 1 2
      = -4 / 125 ∧
    interact_loop_carried Real.sqrt dz 9 1 (0, 0) [0, 1] (golden_state ℝ)
      = interact_loop Real.sqrt dz 9 (fun k => if k = 0 then (0, 0) else (4 / 125, 0)) 1
          [0, 1] (golden_state ℝ) ∧
    interact_loop_carried Real.sqrt dz 9 1 (0, 0) [1, 0] (golden_state ℝ)
      = interact_loop Real.sqrt dz 9 (fun k => if k = 0 then (0, 0) else (-4 / 125, 0)) 1
          [1, 0] (golden_state ℝ) := by
  have f0 : force_loop Real.sqrt 9 (golden_state ℝ) 0 (0, 0) = (4 / 125, 0) := by
    rw [golden_force_loop_0]; norm_num
  have f1 : force_loop Real.sqrt 9 (golden_state ℝ) 1 (0, 0) = (-4 / 125, 0) := by
    rw [golden_force_loop_1]; norm_num
  have a01 : interact_loop_carried Real.sqrt dz 9 1 (0, 0) [0, 1] (golden_state ℝ)
      = interact_fold Real.sqrt dz 9 (fun p => if p = 0 then (0, 0) else (4 / 125, 0)) 1
          [0, 1] (golden_state ℝ) := by
    show interact_body Real.sqrt dz 9 1 (force_loop Real.sqrt 9 (golden_state ℝ) 0 (0, 0))
      (interact_body Real.sqrt dz 9 1 (0, 0) (golden_state ℝ) 0) 1 = _
    rw [f0]; rfl
  have a10 : interact_loop_carried Real.sqrt dz 9 1 (0, 0) [1, 0] (golden_state ℝ)
      = interact_fold Real.sqrt dz 9 (fun p => if p = 1 then (0, 0) else (-4 / 125, 0)) 1
          [1, 0] (golden_state ℝ) := by
    show interact_body Real.sqrt dz 9 1 (force_loop Real.sqrt 9 (golden_state ℝ) 1 (0, 0))
      (interact_body Real.sqrt dz 9 1 (0, 0) (golden_state ℝ) 1) 0 = _
    rw [f1]; rfl
  have hp : (golden_state ℝ).pingpong = 0 := rfl
  refine ⟨?_, ?_, ?_, ?_, ?_, ?_⟩
  · rw [a01, interact_fold_vels]; simp [hp, golden_new_vel_x_0]
  · rw [a01, interact_fold_vels]; simp [hp, golden_new_vel_x_1]
  · rw [a10, interact_fold_vels]; simp [hp, golden_new_vel_x_0]; norm_num
  · rw [a10, interact_fold_vels]; simp [hp, golden_new_vel_x_1]; norm_num
  · show interact_body Real.sqrt dz 9 1 (force_loop Real.sqrt 9 (golden_state ℝ) 0 (0, 0))
      (interact_body Real.sqrt dz 9 1 (0, 0) (golden_state ℝ) 0) 1 = _
    rw [f0]; rfl
  · show interact_body Real.sqrt dz 9 1 (force_loop Real.sqrt 9 (golden_state ℝ) 1 (0, 0))
      (interact_body Real.sqrt dz 9 1 (0, 0) (golden_state ℝ) 1) 0 = _
    rw [f1]; rfl

/-- C18: for every state whose current-buffer masses of the particles are
nonzero, when the array `force` holds `(0,0)` at the start of every
iteration, the total momentum computed from the velocities that
`call_interact_kernel(dt)` stores, with the masses of the buffer that was
read, equals the total momentum of the buffer that was read, in both
components and for every `dt`. -/
theorem momentum_conserved (sqrt : ℝ → ℝ) (dz : ℝ → ℝ) (S dt : ℝ) (s : SimState ℝ)
    (hm : ∀ i : Nat, (i : Int) < s.num_particles →
      s.particle_data s.pingpong (3 * i + 2) ≠ 0) :
    Finset.sum (Finset.range s.num_particles.toNat) (fun i =>
        s.particle_data s.pingpong (3 * i + 2)
          * (call_interact_kernel sqrt dz S (fun _ => (0, 0)) dt s).particle_vels
              (1 - s.pingpong) (2 * i))
      = Finset.sum (Finset.range s.num_particles.toNat) (fun i =>
        s.particle_data s.pingpong (3 * i + 2) * s.particle_vels s.pingpong (2 * i)) ∧
    Finset.sum (Finset.range s.num_particles.toNat) (fun i =>
        s.particle_data s.pingpong (3 * i + 2)
          * (call_interact_kernel sqrt dz S (fun _ => (0, 0)) dt s).particle_vels
              (1 - s.pingpong) (2 * i + 1))
      = Finset.sum (Finset.range s.num_particles.toNat) (fun i =>
        s.particle_data s.pingpong (3 * i + 2) * s.particle_vels s.pingpong (2 * i + 1)) := by
  have hx := sum_sum_antisymm s.num_particles.toNat
    (fun i j => (add_force sqrt S s i j (0, 0)).1)
    (fun i j => by
      show (add_force sqrt S s i j (0, 0)).1 = -(add_force sqrt S s j i (0, 0)).1
      rw [add_force_swap sqrt S s i j]; rfl)
  simp only at hx
  have hy := sum_sum_antisymm s.num_particles.toNat
    (fun i j => (add_force sqrt S s i j (0, 0)).2)
    (fun i j => by
      show (add_force sqrt S s i j (0, 0)).2 = -(add_force sqrt S s j i (0, 0)).2
      rw [add_force_swap sqrt S s i j]; rfl)
  simp only at hy
  have hi : ∀ i ∈ Finset.range s.num_particles.toNat, (i : Int) < s.num_particles := by
    intro i hi
    rw [Finset.mem_range] at hi
    omega
  constructor
  · have e : ∀ i ∈ Finset.range s.num_particles.toNat,
        s.particle_data s.pingpong (3 * i + 2)
          * (call_interact_kernel sqrt dz S (fun _ => (0, 0)) dt s).particle_vels
              (1 - s.pingpong) (2 * i)
        = s.particle_data s.pingpong (3 * i + 2) * s.particle_vels s.pingpong (2 * i)
          + dt * Finset.sum (Finset.range s.num_particles.toNat)
              (fun j => (add_force sqrt S s i j (0, 0)).1) := by
      intro i hir
      have hmi := hm i (hi i hir)
      rw [(call_interact_kernel_particle sqrt dz S (fun _ => (0, 0)) dt s i (hi i hir)).1,
        fdiv_of_ne dz _ _ hmi, force_loop_eq_sum, Prod.fst_add, Prod.fst_sum]
      simp only [zero_add]
      field_simp
      ring
    rw [Finset.sum_congr rfl e, Finset.sum_add_distrib, ← Finset.mul_sum, hx]
    ring
  · have e : ∀ i ∈ Finset.range s.num_particles.toNat,
        s.particle_data s.pingpong (3 * i + 2)
          * (call_interact_kernel sqrt dz S (fun _ => (0, 0)) dt s).particle_vels
              (1 - s.pingpong) (2 * i + 1)
        = s.particle_data s.pingpong (3 * i + 2) * s.particle_vels s.pingpong (2 * i + 1)
          + dt * Finset.sum (Finset.range s.num_particles.toNat)
              (fun j => (add_force sqrt S s i j (0, 0)).2) := by
      intro i hir
      have hmi := hm i (hi i hir)
      rw [(call_interact_kernel_particle sqrt dz S (fun _ => (0, 0)) dt s i (hi i hir)).2.1,
        fdiv_of_ne dz _ _ hmi, force_loop_eq_sum, Prod.snd_add, Prod.snd_sum]
      simp only [zero_add]
      field_simp
      ring
    rw [Finset.sum_congr rfl e, Finset.sum_add_distrib, ← Finset.mul_sum, hy]
    ring

/-- Witness of C18 on the golden scenario with `SOFT_FACTOR = 1` and
`dt = 1`. -/
theorem momentum_conserved_witness :
    (∀ i : Nat, (i : Int) < (golden_state ℝ).num_particles →
      (golden_state ℝ).particle_data (golden_state ℝ).pingpong (3 * i + 2) ≠ 0) ∧
    (Finset.sum (Finset.range (golden_state ℝ).num_particles.toNat) (fun i =>
        (golden_state ℝ).particle_data (golden_state ℝ).pingpong (3 * i + 2)
          * (call_interact_kernel Real.sqrt id 1 (fun _ => (0, 0)) 1
              (golden_state ℝ)).particle_vels (1 - (golden_state ℝ).pingpong) (2 * i))
      = Finset.sum (Finset.range (golden_state ℝ).num_particles.toNat) (fun i =>
        (golden_state ℝ).particle_data (golden_state ℝ).pingpong (3 * i + 2)
          * (golden_state ℝ).particle_vels (golden_state ℝ).pingpong (2 * i)) ∧
    Finset.sum (Finset.range (golden_state ℝ).num_particles.toNat) (fun i =>
        (golden_state ℝ).particle_data (golden_state ℝ).pingpong (3 * i + 2)
          * (call_interact_kernel Real.sqrt id 1 (fun _ => (0, 0)) 1
              (golden_state ℝ)).particle_vels (1 - (golden_state ℝ).pingpong) (2 * i + 1))
      = Finset.sum (Finset.range (golden_state ℝ).num_particles.toNat) (fun i =>
        (golden_state ℝ).particle_data (golden_state ℝ).pingpong (3 * i + 2)
          * (golden_state ℝ).particle_vels (golden_state ℝ).pingpong (2 * i + 1))) :=
  ⟨golden_masses_nonzero,
   momentum_conserved Real.sqrt id 1 1 (golden_state ℝ) golden_masses_nonzero⟩

end Order

end NBody
